import Mathlib

/-
Verification of the data-access layer of the Asset-Manager mobile client
(the SharePointService class in src/screens/HomeScreen.tsx).

The JavaScript/TypeScript code is shallowly embedded: loosely-typed JSON
values become the inductive JVal; a record is an ordered association list
of field name to value (object key insertion order); the mutable service
instance becomes the SPService structure threaded through operations;
the network becomes an explicit environment function from requests to
responses, and each operation additionally returns the list of HTTP
requests it issued.
-/

namespace AssetManager

/-- A JSON-ish JavaScript value: string, number (integer-valued; the code
only ever handles integral ids and text), null, object, or array.
Booleans, floats and undefined never flow through the modelled paths:
absence of a key models undefined. -/
inductive JVal where
  | vstr : String → JVal
  | vnum : Int → JVal
  | vnull : JVal
  | vobj : List (String × JVal) → JVal
  | varr : List JVal → JVal

/-- A record / plain JS object: ordered key-value pairs, keys unique. -/
abbrev Rec := List (String × JVal)

/-- Property read on an object: first binding of the key (undefined = none). -/
def getField (r : Rec) (k : String) : Option JVal :=
  (r.find? (fun p => p.1 == k)).map (fun p => p.2)

/-- Property write, as in JS assignment: replace the existing binding in
place, else append the key at the end (JS key insertion order). -/
def setField (r : Rec) (k : String) (v : JVal) : Rec :=
  match r with
  | [] => [(k, v)]
  | (k', v') :: t => if k' == k then (k, v) :: t else (k', v') :: setField t k v

/-- Property read through an arbitrary value, as in JS member access on a
possibly-non-object: only objects yield properties (arrays and primitives
yield undefined for the names the code reads). -/
def getProp (v : JVal) (k : String) : Option JVal :=
  match v with
  | .vobj o => getField o k
  | _ => none

/-- JS truthiness of a value. -/
def jTruthy : JVal → Bool
  | .vstr s => s ≠ ""
  | .vnum n => n ≠ 0
  | .vnull => false
  | .vobj _ => true
  | .varr _ => true

/-- Does the value satisfy a JS check of the shape x && typeof x === 'object'
(objects and arrays; null is excluded by the truthiness conjunct). -/
def jIsObj : JVal → Bool
  | .vobj _ => true
  | .varr _ => true
  | _ => false

mutual

/-- JS String(...) coercion: arrays join with commas (null elements render
as the empty string inside a join, per Array.prototype.join). -/
def jToString : JVal → String
  | .vstr s => s
  | .vnum n => toString n
  | .vnull => "null"
  | .vobj _ => "[object Object]"
  | .varr l => jToStringJoin l

/-- Element-wise body of Array.prototype.join with separator a comma. -/
def jToStringJoin : List JVal → String
  | [] => ""
  | [.vnull] => ""
  | [v] => jToString v
  | .vnull :: t => "," ++ jToStringJoin t
  | v :: t => jToString v ++ "," ++ jToStringJoin t

end

/-- First truthy value among the given properties, modelling a JS
a.k1 || a.k2 || ... chain (undefined and falsy values are skipped,
none if every disjunct is falsy). -/
def jOrChain (get : String → Option JVal) : List String → Option JVal
  | [] => none
  | k :: ks =>
    match get k with
    | some v => if jTruthy v then some v else jOrChain get ks
    | none => jOrChain get ks

/-- Association list lookup (JS Map.get), first binding wins. -/
def aGet {α β : Type} [BEq α] (m : List (α × β)) (k : α) : Option β :=
  (m.find? (fun p => p.1 == k)).map (fun p => p.2)

/-- Association list update (JS Map.set): replace in place or append. -/
def aSet {α β : Type} [BEq α] (m : List (α × β)) (k : α) (v : β) : List (α × β) :=
  match m with
  | [] => [(k, v)]
  | (k', v') :: t => if k' == k then (k, v) :: t else (k', v') :: aSet t k v

/-- Map.get followed by a JS truthiness test on the stored value. -/
def cacheHit {α : Type} [BEq α] (m : List (α × JVal)) (k : α) : Option JVal :=
  match aGet m k with
  | some v => if jTruthy v then some v else none
  | none => none

/-- White-space characters matched by the regex class backslash-s in the
source's patterns (ASCII subset; the exotic Unicode spaces never occur
in the data the code handles). -/
def jsIsSpace (c : Char) : Bool :=
  c = ' ' ∨ c = '\t' ∨ c = '\n' ∨ c = '\r' ∨ c = '\x0b' ∨ c = '\x0c'

/-- Prefix test, as in JS String.prototype.startsWith. -/
def strStartsWith (s p : String) : Bool :=
  p.toList.isPrefixOf s.toList

/-- Substring containment, as in JS String.prototype.includes. -/
def strContains (s sub : String) : Bool :=
  go s.toList sub.toList
where
  go : List Char → List Char → Bool
    | [], sub => sub.isEmpty
    | c :: rest, sub => sub.isPrefixOf (c :: rest) || go rest sub

/-- JS String.prototype.toLowerCase restricted to ASCII, which is all the
resource and field names the code compares. -/
def jsToLower (s : String) : String :=
  String.mk (s.toList.map Char.toLower)

/-- JS String.prototype.trim: white space stripped from both ends. -/
def jsTrim (s : String) : String :=
  String.mk (((s.toList.dropWhile jsIsSpace).reverse.dropWhile jsIsSpace).reverse)

/-- Body of string splitting on a non-empty separator: the accumulator
holds the current piece reversed, and the fuel (initially the input
length, an upper bound since every step consumes at least one character)
makes the recursion structural. -/
def splitOnGo (sep : List Char) : Nat → List Char → List Char → List (List Char)
  | _, [], cur => [cur.reverse]
  | 0, cs, cur => [cur.reverse ++ cs]
  | fuel + 1, c :: rest, cur =>
    if sep.isPrefixOf (c :: rest) ∧ ¬ sep.isEmpty then
      cur.reverse :: splitOnGo sep fuel (rest.drop (sep.length - 1)) []
    else splitOnGo sep fuel rest (c :: cur)

/-- JS String.prototype.split with a string separator (the separators the
code uses are never empty, and never overlap themselves in the data). -/
def jsSplitOn (s sep : String) : List String :=
  (splitOnGo sep.toList s.toList.length s.toList []).map String.mk

/-- JS parseInt(s, 10): skip leading white space, optional sign, then the
longest run of decimal digits; none models NaN (no digits found).
Trailing junk is ignored, as in JS. -/
def parseIntJS (s : String) : Option Int :=
  let cs := s.toList.dropWhile jsIsSpace
  match cs with
  | '-' :: rest => (parseDigits rest).map (fun n => -(n : Int))
  | '+' :: rest => (parseDigits rest).map (fun n => (n : Int))
  | _ => (parseDigits cs).map (fun n => (n : Int))
where
  parseDigits (cs : List Char) : Option Nat :=
    let ds := cs.takeWhile Char.isDigit
    if ds.isEmpty then none
    else some (ds.foldl (fun a c => a * 10 + (c.toNat - 48)) 0)

/-- The employee-code pattern of the source: caret HPH, an optional single
white-space character, then at least one digit (an unanchored-match test,
so only the start of the string matters). -/
def matchHPH (s : String) : Bool :=
  match s.toList with
  | 'H' :: 'P' :: 'H' :: rest =>
    (match rest with
     | c :: rest2 =>
       if jsIsSpace c then (match rest2 with | d :: _ => d.isDigit | [] => false)
       else c.isDigit
     | [] => false)
  | _ => false

/-- Anchored all-digits test (the source's digits-only regex). -/
def isAllDigits (s : String) : Bool :=
  ¬ s.isEmpty ∧ s.toList.all Char.isDigit

/-- Date-like prefix: four digits, dash, two digits, dash, two digits. -/
def isDateStart (s : String) : Bool :=
  match s.toList with
  | a :: b :: c :: d :: '-' :: e :: f :: '-' :: g :: h :: _ =>
    a.isDigit ∧ b.isDigit ∧ c.isDigit ∧ d.isDigit ∧ e.isDigit ∧ f.isDigit ∧
    g.isDigit ∧ h.isDigit
  | _ => false

/-- Anchored letters-and-spaces test (the personal-name shape check). -/
def lettersSpacesOnly (s : String) : Bool :=
  ¬ s.isEmpty ∧ s.toList.all (fun c => c.isAlpha ∨ jsIsSpace c)

/-- Anchored letters, spaces and dots test (the spaced-name shape check). -/
def lettersSpacesDots (s : String) : Bool :=
  ¬ s.isEmpty ∧ s.toList.all (fun c => c.isAlpha ∨ jsIsSpace c ∨ c = '.')

/-- Hexadecimal digit (either case), for the GUID shape test. -/
def isHexDig (c : Char) : Bool :=
  c.isDigit ∨ ('a' ≤ c ∧ c ≤ 'f') ∨ ('A' ≤ c ∧ c ≤ 'F')

/-- GUID shape: five dash-separated hex groups of lengths 8-4-4-4-12,
mirroring the source's anchored case-insensitive regex. -/
def isGuidFormat (s : String) : Bool :=
  match jsSplitOn s "-" with
  | [a, b, c, d, e] =>
    a.length = 8 ∧ b.length = 4 ∧ c.length = 4 ∧ d.length = 4 ∧ e.length = 12 ∧
    a.toList.all isHexDig ∧ b.toList.all isHexDig ∧ c.toList.all isHexDig ∧
    d.toList.all isHexDig ∧ e.toList.all isHexDig
  | _ => false

/-- JS String.prototype.replace with a string pattern: replace the first
occurrence only (an empty pattern inserts at the start, as in JS). -/
def replaceFirst (s pat repl : String) : String :=
  String.mk (go s.toList pat.toList repl.toList)
where
  go : List Char → List Char → List Char → List Char
    | [], pat, repl => if pat.isEmpty then repl else []
    | c :: rest, pat, repl =>
      if pat.isPrefixOf (c :: rest) then repl ++ (c :: rest).drop pat.length
      else c :: go rest pat repl

/-- One byte rendered as two upper-case hex digits. -/
def hexByte (n : Nat) : String :=
  let dig (m : Nat) : Char := if m < 10 then Char.ofNat (48 + m) else Char.ofNat (55 + m)
  String.mk [dig (n / 16 % 16), dig (n % 16)]

/-- UTF-8 bytes of a character (for percent-encoding). -/
def utf8Bytes (c : Char) : List Nat :=
  let n := c.toNat
  if n < 0x80 then [n]
  else if n < 0x800 then [0xC0 + n / 64, 0x80 + n % 64]
  else if n < 0x10000 then [0xE0 + n / 4096, 0x80 + (n / 64) % 64, 0x80 + n % 64]
  else [0xF0 + n / 262144, 0x80 + (n / 4096) % 64, 0x80 + (n / 64) % 64, 0x80 + n % 64]

/-- JS encodeURIComponent: unreserved characters kept, everything else
percent-encoded byte-wise. -/
def encodeURIComponent (s : String) : String :=
  String.join (s.toList.map encChar)
where
  encChar (c : Char) : String :=
    if c.isAlphanum ∨ c ∈ ['-', '_', '.', '!', '~', '*', Char.ofNat 39, '(', ')']
    then String.singleton c
    else String.join ((utf8Bytes c).map (fun b => "%" ++ hexByte b))

/-! Service state, errors and the transport layer. -/

/-- The error kinds of the design, classified by condition as in the spec
(the source throws plain Error objects; the constructor records which
condition produced the throw, the argument the exact message text). -/
inductive SPError where
  | configError (msg : String)
  | authError (msg : String)
  | notFoundError (msg : String)
  | transportError (msg : String)
  | genericError (msg : String)
deriving DecidableEq

/-- The mutable fields of the SharePointService class instance, plus the
configuration its constructor stores. -/
structure SPService where
  siteUrl : String
  clientId : String
  tenantId : String
  accessToken : Option String := none
  sharePointRoot : String := ""
  siteId : Option String := none
  listIdCache : List (String × String) := []
deriving DecidableEq

/-- One HTTP request issued against the Graph API: the endpoint path
appended to the fixed base URL, the method, and the JSON body passed to
JSON.stringify (none when no body option was given). -/
structure HttpRequest where
  endpoint : String
  method : String
  body : Option Rec

/-- The remote side: a deterministic response for every request. An error
is a non-success HTTP response with status code and body text. -/
structure GraphEnv where
  respond : HttpRequest → Except (Nat × String) Rec

/-- The falsy test the source applies to the token: null or empty string. -/
def tokenFalsy : Option String → Bool
  | none => true
  | some s => s = ""

/-- setAccessToken(token): plain setter. -/
def setAccessToken (st : SPService) (token : String) : SPService :=
  { st with accessToken := some token }

/-- getAccessToken(): plain getter. -/
def getAccessToken (st : SPService) : Option String :=
  st.accessToken

/-- makeGraphRequest: fails with the not-authenticated error before any
network access when the token is falsy; otherwise issues exactly one
request and surfaces a non-success response as a transport error carrying
status and body text. Returns the response and the requests issued. -/
def makeGraphRequest (st : SPService) (env : GraphEnv) (endpoint method : String)
    (body : Option Rec) : Except SPError Rec × List HttpRequest :=
  if tokenFalsy st.accessToken then
    (.error (.authError "Not authenticated. Call authenticate() first."), [])
  else
    match env.respond ⟨endpoint, method, body⟩ with
    | .error (status, text) =>
      (.error (.transportError ("Microsoft Graph API error: " ++ toString status ++ " - " ++ text)),
       [⟨endpoint, method, body⟩])
    | .ok data => (.ok data, [⟨endpoint, method, body⟩])

/-- The site path computed from the configured site URL: hostname, then
a colon-slash and the non-empty path segments (mirrors the new URL(...)
parsing in getSiteId; query strings never occur in site URLs). -/
def sitePathOf (siteUrl : String) : String :=
  let rest := match jsSplitOn siteUrl "://" with
    | _ :: r :: _ => r
    | _ => siteUrl
  let hostport := String.mk (rest.toList.takeWhile (fun c => c ≠ '/'))
  let hostname := String.mk (hostport.toList.takeWhile (fun c => c ≠ ':'))
  let pathname := String.mk (rest.toList.drop hostport.length)
  let pathParts := (jsSplitOn pathname "/").filter (fun p => p ≠ "")
  if pathParts.isEmpty then hostname
  else hostname ++ ":/" ++ String.intercalate "/" pathParts

/-- getSiteId: memoized site-identifier resolution. On a cache miss it
requests the site object and stores String(data.id); a falsy id is the
"Site ID not found in response" failure. -/
def getSiteId (st : SPService) (env : GraphEnv) :
    Except SPError String × SPService × List HttpRequest :=
  match st.siteId with
  | some sid => (.ok sid, st, [])
  | none =>
    match makeGraphRequest st env ("sites/" ++ encodeURIComponent (sitePathOf st.siteUrl)) "GET" none with
    | (.error e, log) => (.error e, st, log)
    | (.ok data, log) =>
      match getField data "id" with
      | some v =>
        if jTruthy v then (.ok (jToString v), { st with siteId := some (jToString v) }, log)
        else (.error (.genericError "Site ID not found in response"), st, log)
      | none => (.error (.genericError "Site ID not found in response"), st, log)

/-- Case-insensitive name match of getListId: the requested name against
a listed resource's displayName or name (optional chaining: a missing or
non-string property never matches). -/
def listMatchesName (listName : String) (l : JVal) : Bool :=
  (match getProp l "displayName" with
   | some (.vstr d) => jsToLower d == jsToLower listName
   | _ => false) ||
  (match getProp l "name" with
   | some (.vstr n) => jsToLower n == jsToLower listName
   | _ => false)

/-- The value array of a listing response (listsData.value or empty). -/
def listsOf (listsData : Rec) : List JVal :=
  match getField listsData "value" with
  | some (.varr l) => l
  | _ => []

/-- The display name a list contributes to the not-found diagnostic:
l.displayName or l.name, joined later (join renders null and undefined
as the empty string). -/
def availableName (l : JVal) : String :=
  match getProp l "displayName" with
  | some v => if jTruthy v then jToString v else fallbackName l
  | none => fallbackName l
where
  fallbackName (l : JVal) : String :=
    match getProp l "name" with
    | some .vnull => ""
    | some v => jToString v
    | none => ""

/-- The message of the not-found failure of getListId, enumerating the
available list names. -/
def notFoundMsg (listName : String) (lists : List JVal) : String :=
  let joined := String.intercalate ", " (lists.map availableName)
  "List \"" ++ listName ++ "\" not found.\n" ++
  "Available lists: " ++ (if joined = "" then "none" else joined)

/-- getListId: memoized per exact name string. On a cache miss: resolve
the site, request the container's list collection (the one listing
request), match the name case-insensitively against displayName and name,
cache and return the match's id, or fail with the enumerating
not-found error. -/
def getListId (st : SPService) (env : GraphEnv) (listName : String) :
    Except SPError String × SPService × List HttpRequest :=
  match aGet st.listIdCache listName with
  | some id => (.ok id, st, [])
  | none =>
    match getSiteId st env with
    | (.error e, st1, log1) => (.error e, st1, log1)
    | (.ok siteId, st1, log1) =>
      match makeGraphRequest st1 env ("sites/" ++ siteId ++ "/lists") "GET" none with
      | (.error e, log2) => (.error e, st1, log1 ++ log2)
      | (.ok listsData, log2) =>
        match (listsOf listsData).find? (listMatchesName listName) with
        | none =>
          (.error (.notFoundError (notFoundMsg listName (listsOf listsData))), st1, log1 ++ log2)
        | some l =>
          match getProp l "id" with
          | some (.vstr lid) =>
            (.ok lid, { st1 with listIdCache := aSet st1.listIdCache listName lid }, log1 ++ log2)
          | _ =>
            (.error (.genericError "list id not a string: outside the modelled data"), st1, log1 ++ log2)

/-! The Session Manager: authenticate and its environment. -/

/-- Outcome of the interactive authorization prompt, mirroring the result
object of the auth-session library: success carries result.params.code,
an error carries error.message, error.code and error.description, plus
the cancelled and unexpected-kind outcomes. -/
inductive PromptResult where
  | success (code : Option String)
  | perror (message : Option String) (ecode : Option String) (description : Option String)
  | cancel
  | unknown (t : String)

/-- The identity-provider side of authenticate: the redirect URIs the
runtime would generate, the prompt outcome, and the access token of the
code-for-token exchange (none models a response without a token). -/
structure AuthEnv where
  redirectUriCustom : String
  redirectUriDefault : String
  promptResult : PromptResult
  exchangeAccessToken : Option String

/-- Option-valued string or-chain with a default (JS a || b || c on
possibly-undefined strings, empty string falsy). -/
def strOrD (x : Option String) (d : String) : String :=
  match x with
  | some s => if s ≠ "" then s else d
  | none => d

/-- The development-runtime redirect normalization: prefer the custom
scheme; when the tool still hands back an exp:// URI, reduce the default
URI to scheme, host and port with a trailing slash (stripping the
auto-appended path), keeping the default verbatim when it does not parse. -/
def computeRedirectUri (env : AuthEnv) : String :=
  let redirectUri := env.redirectUriCustom
  if strStartsWith redirectUri "exp://" then
    let defaultUri := env.redirectUriDefault
    if strContains defaultUri "://" then
      match expBase defaultUri.toList with
      | some base => String.mk base ++ "/"
      | none => defaultUri
    else defaultUri
  else redirectUri
where
  /-- The anchored exp-scheme-plus-authority pattern: exp colon slash
  slash then at least one non-slash character. -/
  expBase (cs : List Char) : Option (List Char) :=
    match cs with
    | 'e' :: 'x' :: 'p' :: ':' :: '/' :: '/' :: rest =>
      let host := rest.takeWhile (fun c => c ≠ '/')
      if host.isEmpty then none
      else some ('e' :: 'x' :: 'p' :: ':' :: '/' :: '/' :: host)
    | _ => none

/-- The actionable diagnostic produced on a redirect-URI mismatch. -/
def redirectMismatchMsg (redirectUri errorMessage errorDescription : String) : String :=
  "Redirect URI mismatch!\n\n" ++
  "The redirect URI used: " ++ redirectUri ++ "\n\n" ++
  "Please add this exact URI to Azure AD:\n" ++
  "1. Go to Azure Portal → Your App → Authentication\n" ++
  "2. Under \"Platform configurations\", add \"Mobile and desktop applications\"\n" ++
  "3. Add this exact redirect URI: " ++ redirectUri ++ "\n" ++
  "4. Save and try again.\n\n" ++
  "Error details: " ++ errorMessage ++
  (if errorDescription ≠ "" then " - " ++ errorDescription else "")

/-- authenticate(): placeholder and empty configuration checks first
(before any external interaction), then the interactive flow and the
code-for-token exchange. Returns the token or the typed failure, the
updated service state, and the number of external interactions performed
(prompt launches plus token-endpoint calls). On success the token is
stored and the site and list-identifier caches are invalidated. -/
def authenticate (st : SPService) (env : AuthEnv) :
    Except SPError String × SPService × Nat :=
  if st.clientId = "" ∨ st.clientId = "YOUR_CLIENT_ID_HERE" then
    (.error (.configError "Client ID not configured. Please update config/sharepointConfig.ts with your Azure AD Client ID."), st, 0)
  else if st.tenantId = "" ∨ st.tenantId = "YOUR_TENANT_ID_HERE" then
    (.error (.configError "Tenant ID not configured. Please update config/sharepointConfig.ts with your Azure AD Tenant ID."), st, 0)
  else
    let redirectUri := computeRedirectUri env
    let st1 := { st with sharePointRoot := (jsSplitOn st.siteUrl "/sites/").headD "" }
    match env.promptResult with
    | .success code? =>
      if strOrD code? "" = "" then
        (.error (.authError "Authorization code not received"), st1, 1)
      else
        match env.exchangeAccessToken with
        | some tok =>
          if tok ≠ "" then
            (.ok tok, { st1 with accessToken := some tok, siteId := none, listIdCache := [] }, 2)
          else (.error (.authError "Access token not received from token exchange"), st1, 2)
        | none => (.error (.authError "Access token not received from token exchange"), st1, 2)
    | .perror m c d =>
      let errorMessage := strOrD m (strOrD c "Unknown error")
      let errorDescription := d.getD ""
      if strContains errorMessage "redirect_uri" ∨ strContains errorDescription "redirect_uri" ∨
         strContains errorMessage "redirect" ∨ strContains errorDescription "redirect" then
        (.error (.authError (redirectMismatchMsg redirectUri errorMessage errorDescription)), st1, 1)
      else
        (.error (.authError ("Authentication error: " ++ errorMessage ++
          (if errorDescription ≠ "" then " - " ++ errorDescription else ""))), st1, 1)
    | .cancel => (.error (.authError "Authentication cancelled by user"), st1, 1)
    | .unknown t => (.error (.authError ("Authentication failed: " ++ t)), st1, 1)

/-! Mutation operation and user enumeration. -/

/-- updateRecord(listName, itemId, fields): resolve the list and site
identifiers, then PATCH the item's field entity with exactly the supplied
fields as body. (itemId is its string rendering, as interpolated into the
endpoint template.) -/
def updateRecord (st : SPService) (env : GraphEnv) (listName itemId : String)
    (fields : Rec) : Except SPError Rec × SPService × List HttpRequest :=
  match getListId st env listName with
  | (.error e, st1, log1) => (.error e, st1, log1)
  | (.ok listId, st1, log1) =>
    match getSiteId st1 env with
    | (.error e, st2, log2) => (.error e, st2, log1 ++ log2)
    | (.ok siteId, st2, log2) =>
      match makeGraphRequest st2 env
          ("sites/" ++ siteId ++ "/lists/" ++ listId ++ "/items/" ++ itemId ++ "/fields")
          "PATCH" (some fields) with
      | (.error e, log3) => (.error e, st2, log1 ++ log2 ++ log3)
      | (.ok resp, log3) => (.ok resp, st2, log1 ++ log2 ++ log3)

/-- The hard page cap of getAllUsers. -/
def maxPages : Nat := 50

/-- The first users request of getAllUsers. -/
def initialUsersEndpoint : String :=
  "users?$select=id,displayName,userPrincipalName,mail,jobTitle,officeLocation,department&$top=999"

/-- The base URL stripped from continuation links before re-requesting. -/
def graphBaseUrl : String := "https://graph.microsoft.com/v1.0/"

/-- The projection getAllUsers applies to each raw user object (missing
display fields defaulted to the empty string, mail falling back to the
principal name). -/
def shapeUser (u : JVal) : Rec :=
  match u with
  | .vobj o =>
    [("id", (getField o "id").getD .vnull),
     ("displayName", jorDef (getField o "displayName") (.vstr "")),
     ("userPrincipalName", jorDef (getField o "userPrincipalName") (.vstr "")),
     ("mail", jorDef (getField o "mail") (jorDef (getField o "userPrincipalName") (.vstr ""))),
     ("jobTitle", (getField o "jobTitle").getD .vnull),
     ("officeLocation", (getField o "officeLocation").getD .vnull),
     ("department", (getField o "department").getD .vnull)]
  | _ => []
where
  jorDef (x : Option JVal) (d : JVal) : JVal :=
    match x with
    | some v => if jTruthy v then v else d
    | none => d

/-- The fetch loop of getAllUsers: request the endpoint, append the
shaped page, follow the continuation link with the base URL stripped,
and stop at the page cap. The remaining-pages counter starts at the hard
cap and the loop stops when it is exhausted, mirroring the source's
pageCount (pageCount fetched = cap minus remaining) and making the
recursion structural, hence total: the loop terminates on every
environment. -/
def getAllUsersLoop (st : SPService) (env : GraphEnv) (endpoint : String)
    (acc : List Rec) (log : List HttpRequest) :
    Nat → Except SPError (List Rec) × List HttpRequest
  | 0 => (.ok acc, log)
  | remaining + 1 =>
    match makeGraphRequest st env endpoint "GET" none with
    | (.error e, l) => (.error e, log ++ l)
    | (.ok resp, l) =>
      let acc' := match getField resp "value" with
        | some (.varr items) => if items.isEmpty then acc else acc ++ items.map shapeUser
        | _ => acc
      let nextLink : Option String := match getField resp "@odata.nextLink" with
        | some (.vstr s) => if s ≠ "" then some s else none
        | _ => none
      if remaining = 0 then (.ok acc', log ++ l)
      else
        match nextLink with
        | none => (.ok acc', log ++ l)
        | some link =>
          getAllUsersLoop st env (replaceFirst link graphBaseUrl "") acc' (log ++ l) remaining

/-- getAllUsers(): paginated enumeration of the organization's users; any
failure is caught and downgraded to an empty result. Returns the users
and the requests issued. -/
def getAllUsers (st : SPService) (env : GraphEnv) : List Rec × List HttpRequest :=
  match getAllUsersLoop st env initialUsersEndpoint [] [] maxPages with
  | (.ok users, log) => (users, log)
  | (.error _, log) => ([], log)

/-! The Reference Resolver: employee and assignee lookup resolution. -/

/-- Truthiness of a possibly-undefined value. -/
def jTruthyO : Option JVal → Bool
  | some v => jTruthy v
  | none => false

/-- The field container of a fetched item (employeeItem.fields or empty;
a non-object container never occurs in the modelled data). -/
def recFields (item : Rec) : Rec :=
  match getField item "fields" with
  | some (.vobj o) => o
  | _ => []

/-- Sentinel values never accepted as a personal name. -/
def skipValuesList : List String :=
  ["Assigned", "Available", "Item", "ContentType", "Edit", "Attachments"]

/-- Lower-case fragments of field names never scanned for a name. -/
def skipFieldNamesList : List String :=
  ["cardstatus", "contenttype", "accesscardno", "assets", "empid",
   "employeeid", "lookupid", "id", "odata", "author", "editor"]

/-- The scan over all string-valued fields of extractEmployeeName, in key
insertion order: skip empty, employee-code-shaped, id-equal, excluded-name
and excluded-value fields, digit runs, short tokens and dates, and accept
the first value that looks like a personal name. -/
def scanNameField (eqEmpId : String → Bool) : List (String × JVal) → Option JVal
  | [] => none
  | (fieldName, fieldValue) :: rest =>
    match fieldValue with
    | .vstr value =>
      if jsTrim value = "" then scanNameField eqEmpId rest
      else
        let fieldNameLower := jsToLower fieldName
        if matchHPH value ∨ eqEmpId value then scanNameField eqEmpId rest
        else if strContains fieldNameLower "empid" ∨ strContains fieldNameLower "emp_id" then
          scanNameField eqEmpId rest
        else if skipValuesList.contains value then scanNameField eqEmpId rest
        else if skipFieldNamesList.any (fun sk => strContains fieldNameLower sk) then
          scanNameField eqEmpId rest
        else if isAllDigits value ∨ value.length < 3 then scanNameField eqEmpId rest
        else if isDateStart value then scanNameField eqEmpId rest
        else if (lettersSpacesOnly value ∧ value.length > 5) ∨
                (strContains value " " ∧ value.length > 8 ∧ lettersSpacesDots value) then
          some (.vstr value)
        else scanNameField eqEmpId rest
    | _ => scanNameField eqEmpId rest

/-- extractEmployeeName: the name-extraction heuristic over an item's
field container. Try Title (as a string rendering, unless it is an
employee code, equals the employee-id value, is a sentinel, or trims to
nothing); then the Employee field (inline person object's display name,
or a plain string that is not a code and not the id); else scan all
string fields. none models the null result. -/
def extractEmployeeName (employeeItem : Rec) : Option JVal :=
  let fields := recFields employeeItem
  let empIdValue := jOrChain (getField fields) ["EmpID", "EmpId", "EmpID0", "field_1"]
  let eqEmpId : String → Bool := fun s =>
    match empIdValue with
    | some (.vstr e) => s == e
    | _ => false
  let titleRes : Option JVal :=
    match getField fields "Title" with
    | some tv =>
      if jTruthy tv then
        let titleValue := jToString tv
        if ¬ matchHPH titleValue ∧ ¬ eqEmpId titleValue ∧
           ¬ skipValuesList.contains titleValue ∧ (jsTrim titleValue).length > 0
        then some (.vstr titleValue) else none
      else none
    | none => none
  match titleRes with
  | some v => some v
  | none =>
    let empRes : Option JVal :=
      match getField fields "Employee" with
      | some ev =>
        if jTruthy ev then
          if jIsObj ev then
            match getProp ev "displayName" with
            | some d => if jTruthy d then some d else none
            | none => none
          else
            match ev with
            | .vstr s => if ¬ matchHPH s ∧ ¬ eqEmpId s then some (.vstr s) else none
            | _ => none
        else none
      | none => none
    match empRes with
    | some v => some v
    | none => scanNameField eqEmpId fields

/-- Is resolution in inline mode: the first record's Employee field is a
truthy object. (The source reads records[0]; callers only invoke the
resolver on a non-empty record set.) -/
def inlineEmployeeMode (records : List Rec) : Bool :=
  match records with
  | [] => false
  | r :: _ =>
    match getField r "Employee" with
    | some v => jTruthy v ∧ jIsObj v
    | none => false

/-- The display name drawn from an inline expanded Employee mapping. -/
def employeeInlineName (v : JVal) : Option JVal :=
  jOrChain (getProp v) ["displayName", "LookupValue", "Title", "email"]

/-- The per-record update of the inline branch: when the record's own
Employee field is a truthy object whose extracted name is a string not
shaped like an employee code, overwrite Employee and EmployeeName with
it; otherwise leave the record alone. (A truthy non-string name would
crash the source's regex test; such data is outside the model.) -/
def employeeInlineUpdate (r : Rec) : Rec :=
  match getField r "Employee" with
  | some v =>
    if jTruthy v ∧ jIsObj v then
      match employeeInlineName v with
      | some (.vstr s) =>
        if matchHPH s then r
        else setField (setField r "Employee" (.vstr s)) "EmployeeName" (.vstr s)
      | some _ => r
      | none => r
    else r
  | none => r

/-- The numeric reading of a raw lookup value: strings via parseInt,
numbers as themselves, anything else is NaN. -/
def parseEmpId : JVal → Option Int
  | .vstr s => parseIntJS s
  | .vnum n => some n
  | _ => none

/-- Set insertion preserving first-occurrence order (JS Set.add). -/
def insertDistinct {α : Type} [BEq α] (acc : List α) (x : α) : List α :=
  if acc.contains x then acc else acc ++ [x]

/-- Accumulating pass of collectEmployeeIds. -/
def collectEmployeeIdsAux (acc : List Int) : List Rec → List Int
  | [] => acc
  | r :: rest =>
    collectEmployeeIdsAux
      (match getField r "EmployeeLookupId" with
       | some .vnull => acc
       | some v =>
         (match parseEmpId v with
          | some n => if 0 < n then insertDistinct acc n else acc
          | none => acc)
       | none => acc) rest

/-- The distinct positive EmployeeLookupId values across the records, in
first-occurrence order. -/
def collectEmployeeIds (records : List Rec) : List Int :=
  collectEmployeeIdsAux [] records

/-- The identifier of a cached related record: Id parsed when a string,
taken as-is when a number, NaN otherwise. -/
def empIdOfRec (emp : Rec) : Option Int :=
  match getField emp "Id" with
  | some (.vstr s) => parseIntJS s
  | some (.vnum n) => some n
  | _ => none

/-- The caller-supplied-cache tier: for each collected identifier, find a
cached related record with that Id and a usable extracted name; resolved
identifiers are removed from the remaining fetch set. -/
def employeeCacheTier (cached : Option (List Rec)) (ids : List Int) :
    List (Int × JVal) × List Int :=
  match cached with
  | some ces =>
    if ces.isEmpty then ([], ids)
    else
      ids.foldl (fun acc empId =>
        match ces.find? (fun emp => empIdOfRec emp == some empId) with
        | some ce =>
          (match extractEmployeeName [("fields", .vobj ce)] with
           | some v =>
             if jTruthy v then (aSet acc.1 empId v, acc.2.filter (fun x => x ≠ empId))
             else acc
           | none => acc)
        | none => acc) ([], ids)
  | none => ([], ids)

/-- The endpoint of an item-by-id fetch with field expansion. -/
def employeeItemEndpoint (siteId listId : String) (empId : Int) : String :=
  "sites/" ++ siteId ++ "/lists/" ++ listId ++ "/items/" ++ toString empId ++ "?$expand=fields"

/-- The special handling of an item fetched from the Access Cards
fallback container: when it carries a card number and an Employee field,
take the inline display name or the plain non-code string; otherwise the
caller falls back to the general extraction heuristic. -/
def accessCardName (card : Rec) : Option JVal :=
  let fields := recFields card
  if jTruthyO (getField fields "AccessCardNo") ∧ jTruthyO (getField fields "Employee") then
    match getField fields "Employee" with
    | some (.vobj o) =>
      (match getField o "displayName" with
       | some d => if jTruthy d then some d else none
       | none => none)
    | some (.vstr s) => if matchHPH s then none else some (.vstr s)
    | _ => none
  else none

/-- The remote tier's work for one identifier: fetch from the Employees
container when its identifier resolved, else fall back to the Access
Cards container (resolving its identifier on demand); every failure is
swallowed and yields no name. -/
def employeeFetchOne (st : SPService) (env : GraphEnv) (siteId : String)
    (employeesListId : Option String) (empId : Int) :
    Option JVal × SPService × List HttpRequest :=
  let fetched : Option Rec × List HttpRequest :=
    match employeesListId with
    | some lid =>
      (match makeGraphRequest st env (employeeItemEndpoint siteId lid empId) "GET" none with
       | (.ok it, l) => (some it, l)
       | (.error _, l) => (none, l))
    | none => (none, [])
  match fetched with
  | (some it, log1) => (extractEmployeeName it, st, log1)
  | (none, log1) =>
    match getListId st env "Access Cards" with
    | (.error _, st1, log2) => (none, st1, log1 ++ log2)
    | (.ok aclid, st1, log2) =>
      match makeGraphRequest st1 env (employeeItemEndpoint siteId aclid empId) "GET" none with
      | (.error _, log3) => (none, st1, log1 ++ log2 ++ log3)
      | (.ok card, log3) =>
        match accessCardName card with
        | some v => (some v, st1, log1 ++ log2 ++ log3)
        | none => (extractEmployeeName card, st1, log1 ++ log2 ++ log3)

/-- The remote tier: resolve the Employees container once (a failure
leaves it unknown), then fetch each remaining identifier, recording every
truthy name found. -/
def employeeRemoteTier (st : SPService) (env : GraphEnv) (siteId : String)
    (cache : List (Int × JVal)) (ids : List Int) :
    List (Int × JVal) × SPService × List HttpRequest :=
  let start : List (Int × JVal) × SPService × List HttpRequest :=
    match getListId st env "Employees" with
    | (.ok lid, st', l) => goFold (some lid) (cache, st', l)
    | (.error _, st', l) => goFold none (cache, st', l)
  start
where
  goFold (employeesListId : Option String)
      (init : List (Int × JVal) × SPService × List HttpRequest) :
      List (Int × JVal) × SPService × List HttpRequest :=
    ids.foldl (fun acc empId =>
      let r := employeeFetchOne acc.2.1 env siteId employeesListId empId
      (match r.1 with
       | some v => if jTruthy v then aSet acc.1 empId v else acc.1
       | none => acc.1,
       r.2.1, acc.2.2 ++ r.2.2)) init

/-- The population pass: every record whose raw lookup identifier is a
positive number receives the resolved name in both Employee and
EmployeeName, or the placeholder embedding the identifier in Employee
alone. -/
def populateEmployeeRecord (cache : List (Int × JVal)) (r : Rec) : Rec :=
  match getField r "EmployeeLookupId" with
  | some v =>
    (match v with
     | .vnull => r
     | _ =>
       match parseEmpId v with
       | some n =>
         if 0 < n then
           match cacheHit cache n with
           | some name => setField (setField r "Employee" name) "EmployeeName" name
           | none => setField r "Employee" (.vstr ("[ID: " ++ toString n ++ "]"))
         else r
       | none => r)
  | none => r

/-- populateEmployeeRecord mapped across the record set. -/
def populateEmployees (cache : List (Int × JVal)) (records : List Rec) : List Rec :=
  records.map (populateEmployeeRecord cache)

/-- The name cache the population pass of resolveEmployeeNames reads:
the cache tier's results, extended by the remote tier only when
identifiers remained unresolved. -/
def employeeFinalCache (st : SPService) (env : GraphEnv) (records : List Rec)
    (siteId : String) (cached : Option (List Rec)) : List (Int × JVal) :=
  let ids := collectEmployeeIds records
  let p := employeeCacheTier cached ids
  if p.2.isEmpty then p.1 else (employeeRemoteTier st env siteId p.1 p.2).1

/-- resolveEmployeeNames: inline mode rewrites each record from its own
inline mapping with no network access; otherwise collect the raw
identifiers, resolve them through the cache then the remote tier, and
populate every record. Returns the records, the service state, and the
requests issued. -/
def resolveEmployeeNames (st : SPService) (env : GraphEnv) (records : List Rec)
    (siteId : String) (cached : Option (List Rec)) :
    List Rec × SPService × List HttpRequest :=
  if inlineEmployeeMode records then (records.map employeeInlineUpdate, st, [])
  else
    let ids := collectEmployeeIds records
    if ids.isEmpty then (records, st, [])
    else
      let p := employeeCacheTier cached ids
      if p.2.isEmpty then (populateEmployees p.1 records, st, [])
      else
        let q := employeeRemoteTier st env siteId p.1 p.2
        (populateEmployees q.1 records, q.2.1, q.2.2)

/-- Accumulating pass of collectAssigneeIds. -/
def collectAssigneeIdsAux (acc : List String) : List Rec → List String
  | [] => acc
  | r :: rest =>
    collectAssigneeIdsAux
      (match getField r "field_2LookupId" with
       | some .vnull => acc
       | some v => insertDistinct acc (jToString v)
       | none => acc) rest

/-- The distinct string renderings of field_2LookupId across the records. -/
def collectAssigneeIds (records : List Rec) : List String :=
  collectAssigneeIdsAux [] records

/-- The fetch-phase resolution for one assignee identifier: the inline
mapping of the first record carrying the identifier as the same string
(strict equality, so a numeric lookup value never matches here), then the
caller-supplied cache of related records, then a remote user fetch
attempted only for GUID-shaped identifiers; failures yield no name. -/
def assigneeFetchOne (st : SPService) (env : GraphEnv) (records : List Rec)
    (cached : Option (List Rec)) (userId : String) : Option JVal × List HttpRequest :=
  let inline1 : Option JVal :=
    match records.find? (fun r =>
        match getField r "field_2LookupId" with
        | some (.vstr s) => s == userId
        | _ => false) with
    | some r =>
      (match getField r "field_2" with
       | some w =>
         if jTruthy w ∧ jIsObj w then
           jOrChain (getProp w) ["displayName", "Title", "userPrincipalName"]
         else none
       | none => none)
    | none => none
  match inline1 with
  | some v => (some v, [])
  | none =>
    let tier2 : Option JVal :=
      match cached with
      | some ces =>
        if ces.isEmpty then none
        else
          match parseIntJS userId with
          | some eid =>
            if 0 < eid then
              match ces.find? (fun emp => empIdOfRec emp == some eid) with
              | some ce => jOrChain (getField ce) ["Employee", "EmployeeName", "Title", "displayName"]
              | none => none
            else none
          | none => none
      | none => none
    match tier2 with
    | some v => (some v, [])
    | none =>
      if isGuidFormat userId then
        match makeGraphRequest st env ("users/" ++ userId) "GET" none with
        | (.ok userInfo, l) =>
          (jOrChain (getField userInfo) ["displayName", "userPrincipalName", "mail"], l)
        | (.error _, l) => (none, l)
      else (none, [])

/-- The fetch phase over all collected assignee identifiers, recording
every truthy resolved name. -/
def assigneeBuild (st : SPService) (env : GraphEnv) (records : List Rec)
    (cached : Option (List Rec)) (ids : List String) :
    List (String × JVal) × List HttpRequest :=
  ids.foldl (fun acc userId =>
    let r := assigneeFetchOne st env records cached userId
    (match r.1 with
     | some v => if jTruthy v then aSet acc.1 userId v else acc.1
     | none => acc.1,
     acc.2 ++ r.2)) ([], [])

/-- The per-record inline check of the assignee population pass (this one
also accepts an email property). -/
def assigneeInlinePopulateName (r : Rec) : Option JVal :=
  match getField r "field_2" with
  | some w =>
    if jTruthy w ∧ jIsObj w then
      jOrChain (getProp w) ["displayName", "Title", "userPrincipalName", "email"]
    else none
  | none => none

/-- The assignee population pass: records carrying a raw identifier take
their own inline name, else the fetched name, into Assignee and
AssigneeName, or the placeholder embedding the identifier into Assignee
alone. -/
def populateAssigneeRecord (cache : List (String × JVal)) (r : Rec) : Rec :=
  match getField r "field_2LookupId" with
  | some v =>
    (match v with
     | .vnull => r
     | _ =>
       let userId := jToString v
       match assigneeInlinePopulateName r with
       | some w => setField (setField r "Assignee" w) "AssigneeName" w
       | none =>
         match cacheHit cache userId with
         | some w => setField (setField r "Assignee" w) "AssigneeName" w
         | none => setField r "Assignee" (.vstr ("[ID: " ++ userId ++ "]")))
  | none => r

/-- The name cache the assignee population pass reads. -/
def assigneeFinalCache (st : SPService) (env : GraphEnv) (records : List Rec)
    (cached : Option (List Rec)) : List (String × JVal) :=
  (assigneeBuild st env records cached (collectAssigneeIds records)).1

/-- resolveAssigneeNames: collect the raw identifiers, run the fetch
phase, then populate every record. Returns the records and the requests
issued (the service state is never written by this path). -/
def resolveAssigneeNames (st : SPService) (env : GraphEnv) (records : List Rec)
    (cached : Option (List Rec)) : List Rec × List HttpRequest :=
  let ids := collectAssigneeIds records
  if ids.isEmpty then (records, [])
  else
    let b := assigneeBuild st env records cached ids
    (records.map (populateAssigneeRecord b.1), b.2)

/-- The field of a record at a position in a record list (none when the
position or field is absent); the shape of the resolution conclusions. -/
def fieldAt (rs : List Rec) (i : Nat) (k : String) : Option JVal :=
  match rs.get? i with
  | some r => getField r k
  | none => none

/-! Concrete fixtures: small services, environments and record sets used
to witness the theorems below on closed inputs. -/

/-- Suffix test (used only by fixture environments to route requests). -/
def strEndsWith (s p : String) : Bool :=
  p.toList.reverse.isPrefixOf s.toList.reverse

/-- An authenticated service with a resolved site, as left behind by a
successful login followed by site resolution. -/
def stW : SPService :=
  { siteUrl := "https://contoso.sharepoint.com/sites/Test", clientId := "cid",
    tenantId := "tid", accessToken := some "tok", sharePointRoot := "",
    siteId := some "site1", listIdCache := [] }

/-- An authenticated service that has not resolved anything yet. -/
def stFresh : SPService :=
  { siteUrl := "https://contoso.sharepoint.com/sites/Test", clientId := "cid",
    tenantId := "tid", accessToken := some "tok" }

/-- A remote side on which every request fails. -/
def envFail : GraphEnv := ⟨fun _ => .error (404, "Not Found")⟩

/-- A remote side exposing one container with a single list named Assets. -/
def envL : GraphEnv :=
  ⟨fun req =>
    if strEndsWith req.endpoint "/lists" then
      .ok [("value", .varr [.vobj [("name", .vstr "Assets"),
                                   ("displayName", .vstr "Assets"),
                                   ("id", .vstr "L1")]])]
    else if strStartsWith req.endpoint "sites/" then
      .ok [("id", .vstr "site9")]
    else .error (404, "nf")⟩

/-- One record whose Employee field is an inline expanded mapping. -/
def recsInline : List Rec :=
  [[("Id", .vstr "1"), ("Employee", .vobj [("displayName", .vstr "Jane Doe")])]]

/-- A record set whose second record has the inline mapping but whose
first does not. -/
def recsC1cex : List Rec :=
  [[("Id", .vstr "1")],
   [("Id", .vstr "2"), ("Employee", .vobj [("displayName", .vstr "Jane Doe")])]]

/-- One record carrying only a raw employee lookup identifier. -/
def recsFallback : List Rec :=
  [[("Id", .vstr "1"), ("EmployeeLookupId", .vnum 42)]]

/-- One record carrying only a raw assignee lookup identifier. -/
def recsAFallback : List Rec :=
  [[("Id", .vstr "1"), ("field_2LookupId", .vstr "42")]]

/-- A caller-supplied cache resolving employee 42. -/
def cachedEmps : List Rec := [[("Id", .vnum 42), ("Title", .vstr "Jane Doe")]]

/-- One record with a raw assignee identifier and an inline user object. -/
def recsAInline : List Rec :=
  [[("Id", .vstr "1"), ("field_2LookupId", .vstr "7"),
    ("field_2", .vobj [("displayName", .vstr "Bob Smith")])]]

/-- A raw organization user, as returned by the users listing. -/
def userObj : JVal := .vobj [("id", .vstr "u"), ("displayName", .vstr "U V")]

/-- A users page of 999 entries with an optional continuation link. -/
def pageOf (next : Option String) : Rec :=
  [("value", .varr (List.replicate 999 userObj))] ++
  (match next with | some l => [("@odata.nextLink", JVal.vstr l)] | none => [])

/-- A remote side with exactly three users pages linked in sequence. -/
def env3 : GraphEnv :=
  ⟨fun req =>
    if req.endpoint = initialUsersEndpoint then
      .ok (pageOf (some "https://graph.microsoft.com/v1.0/usersP2"))
    else if req.endpoint = "usersP2" then
      .ok (pageOf (some "https://graph.microsoft.com/v1.0/usersP3"))
    else if req.endpoint = "usersP3" then .ok (pageOf none)
    else .error (400, "bad")⟩

/-- A remote side advertising a continuation link on every page (at
least 51 pages available, in fact unboundedly many). -/
def envInf : GraphEnv :=
  ⟨fun _ => .ok [("value", .varr [userObj]),
                 ("@odata.nextLink", JVal.vstr "https://graph.microsoft.com/v1.0/usersNext")]⟩

/-- A service configured with the documented placeholder client id. -/
def stPlaceholder : SPService :=
  { siteUrl := "https://contoso.sharepoint.com/sites/Test",
    clientId := "YOUR_CLIENT_ID_HERE", tenantId := "tid" }

/-- An authentication environment (never reached by the config checks). -/
def envA : AuthEnv :=
  ⟨"employee-assets://auth", "exp://192.168.9.142:8081/--/auth", .cancel, none⟩

/-- Does a request result denote the configuration-error condition. -/
def isConfigErrorRes : Except SPError String → Bool
  | .error (.configError _) => true
  | _ => false

/-- The resolved identifier of a name-resolution outcome, none on failure. -/
def idOf (x : Except SPError String × SPService × List HttpRequest) : Option String :=
  match x.1 with
  | .ok i => some i
  | .error _ => none

/-! Supporting lemmas. -/

theorem getField_setField_same (r : Rec) (k : String) (v : JVal) :
    getField (setField r k v) k = some v := by
  induction r with
  | nil => simp [setField, getField, List.find?]
  | cons p t ih =>
    obtain ⟨k', v'⟩ := p
    by_cases h : k' = k
    · subst h; simp [setField, getField, List.find?]
    · simp only [setField, beq_false_of_ne h, if_false, Bool.false_eq_true]
      simp only [getField, List.find?, beq_false_of_ne h]
      exact ih

theorem getField_setField_ne (r : Rec) (k k' : String) (v : JVal) (h : k' ≠ k) :
    getField (setField r k v) k' = getField r k' := by
  induction r with
  | nil => simp [setField, getField, List.find?, beq_false_of_ne (Ne.symm h)]
  | cons p t ih =>
    obtain ⟨k₀, v₀⟩ := p
    by_cases h₀ : k₀ = k
    · subst h₀
      simp only [setField, beq_self_eq_true, if_true]
      simp [getField, List.find?, beq_false_of_ne (Ne.symm h)]
    · simp only [setField, beq_false_of_ne h₀, if_false, Bool.false_eq_true]
      by_cases h₁ : k₀ = k'
      · subst h₁; simp [getField, List.find?]
      · simp only [getField, List.find?, beq_false_of_ne h₁]
        exact ih

theorem aGet_aSet_same {α β : Type} [BEq α] [LawfulBEq α]
    (m : List (α × β)) (k : α) (v : β) :
    aGet (aSet m k v) k = some v := by
  induction m with
  | nil => simp [aSet, aGet, List.find?]
  | cons p t ih =>
    obtain ⟨k', v'⟩ := p
    by_cases h : (k' == k) = true
    · simp only [aSet, h, if_true]
      simp [aGet, List.find?]
    · simp only [aSet, h, if_false, Bool.false_eq_true]
      simp only [aGet, List.find?, h]
      exact ih

theorem listGetMap {α β : Type} (f : α → β) (l : List α) (i : Nat) :
    (l.map f).get? i = (l.get? i).map f := by
  induction l generalizing i with
  | nil => cases i <;> rfl
  | cons a t ih => cases i with
    | zero => rfl
    | succ j => exact ih j

theorem mem_insertDistinct {α : Type} [BEq α] [LawfulBEq α] (acc : List α) (x : α) :
    x ∈ insertDistinct acc x := by
  unfold insertDistinct
  split
  · next h => exact List.elem_iff.mp h
  · exact List.mem_append_right _ (List.mem_singleton.mpr rfl)

theorem mem_insertDistinct_mono {α : Type} [BEq α] (acc : List α) (y x : α)
    (h : y ∈ acc) : y ∈ insertDistinct acc x := by
  unfold insertDistinct
  split
  · exact h
  · exact List.mem_append_left _ h

theorem collectEmployeeIdsAux_mono (l : List Rec) (acc : List Int) (x : Int)
    (h : x ∈ acc) : x ∈ collectEmployeeIdsAux acc l := by
  induction l generalizing acc with
  | nil => exact h
  | cons r rest ih =>
    show x ∈ collectEmployeeIdsAux _ rest
    apply ih
    split
    · exact h
    · split
      · split
        · exact mem_insertDistinct_mono _ _ _ h
        · exact h
      · exact h
    · exact h

theorem collectEmployeeIdsAux_mem (l : List Rec) (i : Nat) (r : Rec) (v : JVal)
    (n : Int) (hi : l.get? i = some r)
    (hf : getField r "EmployeeLookupId" = some v)
    (hp : parseEmpId v = some n) (hn : 0 < n) (acc : List Int) :
    n ∈ collectEmployeeIdsAux acc l := by
  induction l generalizing acc i with
  | nil => cases i <;> cases hi
  | cons r₀ rest ih =>
    cases i with
    | zero =>
      injection hi with hi
      subst hi
      show n ∈ collectEmployeeIdsAux _ rest
      apply collectEmployeeIdsAux_mono
      cases v with
      | vnull => cases hp
      | vobj o => cases hp
      | varr a => cases hp
      | vstr s =>
        rw [hf]
        have hp' : parseEmpId (.vstr s) = some n := hp
        simp only [hp']
        rw [if_pos hn]
        exact mem_insertDistinct acc n
      | vnum m =>
        rw [hf]
        have hp' : parseEmpId (.vnum m) = some n := hp
        simp only [hp']
        rw [if_pos hn]
        exact mem_insertDistinct acc n
    | succ j => exact ih j hi _

theorem collect_mem_employee (records : List Rec) (i : Nat) (r : Rec) (v : JVal)
    (n : Int) (hi : records.get? i = some r)
    (hf : getField r "EmployeeLookupId" = some v)
    (hp : parseEmpId v = some n) (hn : 0 < n) :
    n ∈ collectEmployeeIds records :=
  collectEmployeeIdsAux_mem records i r v n hi hf hp hn []

theorem collectAssigneeIdsAux_mono (l : List Rec) (acc : List String) (x : String)
    (h : x ∈ acc) : x ∈ collectAssigneeIdsAux acc l := by
  induction l generalizing acc with
  | nil => exact h
  | cons r rest ih =>
    show x ∈ collectAssigneeIdsAux _ rest
    apply ih
    split
    · exact h
    · exact mem_insertDistinct_mono _ _ _ h
    · exact h

theorem collectAssigneeIdsAux_mem (l : List Rec) (i : Nat) (r : Rec) (v : JVal)
    (hi : l.get? i = some r) (hf : getField r "field_2LookupId" = some v)
    (hnn : v ≠ .vnull) (acc : List String) :
    jToString v ∈ collectAssigneeIdsAux acc l := by
  induction l generalizing acc i with
  | nil => cases i <;> cases hi
  | cons r₀ rest ih =>
    cases i with
    | zero =>
      injection hi with hi
      subst hi
      show jToString v ∈ collectAssigneeIdsAux _ rest
      apply collectAssigneeIdsAux_mono
      cases v with
      | vnull => exact absurd rfl hnn
      | vstr s => rw [hf]; exact mem_insertDistinct acc _
      | vnum m => rw [hf]; exact mem_insertDistinct acc _
      | vobj o => rw [hf]; exact mem_insertDistinct acc _
      | varr a => rw [hf]; exact mem_insertDistinct acc _
    | succ j => exact ih j hi _

theorem collect_mem_assignee (records : List Rec) (i : Nat) (r : Rec) (v : JVal)
    (hi : records.get? i = some r) (hf : getField r "field_2LookupId" = some v)
    (hnn : v ≠ .vnull) :
    jToString v ∈ collectAssigneeIds records :=
  collectAssigneeIdsAux_mem records i r v hi hf hnn []

theorem resolveEmployee_populate (st : SPService) (env : GraphEnv)
    (records : List Rec) (siteId : String) (cached : Option (List Rec))
    (hmode : inlineEmployeeMode records = false)
    (hids : collectEmployeeIds records ≠ []) :
    (resolveEmployeeNames st env records siteId cached).1
      = populateEmployees (employeeFinalCache st env records siteId cached) records := by
  have h1 : (collectEmployeeIds records).isEmpty = false := by
    rw [Bool.eq_false_iff]
    intro hc
    exact hids (List.isEmpty_iff.mp hc)
  unfold resolveEmployeeNames employeeFinalCache
  simp only [hmode, Bool.false_eq_true, if_false, h1]
  split
  · rfl
  · rfl

theorem resolveAssignee_populate (st : SPService) (env : GraphEnv)
    (records : List Rec) (cached : Option (List Rec))
    (hids : collectAssigneeIds records ≠ []) :
    (resolveAssigneeNames st env records cached).1
      = records.map (populateAssigneeRecord (assigneeFinalCache st env records cached)) := by
  have h1 : (collectAssigneeIds records).isEmpty = false := by
    rw [Bool.eq_false_iff]
    intro hc
    exact hids (List.isEmpty_iff.mp hc)
  unfold resolveAssigneeNames assigneeFinalCache
  simp only [h1, Bool.false_eq_true, if_false]

theorem resolveEmployee_inline (st : SPService) (env : GraphEnv)
    (records : List Rec) (siteId : String) (cached : Option (List Rec))
    (hmode : inlineEmployeeMode records = true) :
    resolveEmployeeNames st env records siteId cached
      = (records.map employeeInlineUpdate, st, []) := by
  unfold resolveEmployeeNames
  rw [hmode]
  rfl

theorem employeeInlineUpdate_name (r : Rec) (o : List (String × JVal)) (s : String)
    (hemp : getField r "Employee" = some (.vobj o))
    (hname : employeeInlineName (.vobj o) = some (.vstr s))
    (hhph : matchHPH s = false) :
    employeeInlineUpdate r
      = setField (setField r "Employee" (.vstr s)) "EmployeeName" (.vstr s) := by
  simp [employeeInlineUpdate, hemp, hname, hhph, jTruthy, jIsObj]

theorem populateEmployeeRecord_hit (cache : List (Int × JVal)) (r : Rec)
    (v : JVal) (n : Int) (w : JVal)
    (hf : getField r "EmployeeLookupId" = some v)
    (hp : parseEmpId v = some n) (hn : 0 < n)
    (hh : cacheHit cache n = some w) :
    getField (populateEmployeeRecord cache r) "Employee" = some w
    ∧ getField (populateEmployeeRecord cache r) "EmployeeName" = some w := by
  unfold populateEmployeeRecord
  rw [hf]
  cases v with
  | vnull => cases hp
  | vobj o => cases hp
  | varr a => cases hp
  | vstr s =>
    have hp' : parseEmpId (.vstr s) = some n := hp
    simp only [hp', if_pos hn, hh]
    exact ⟨by rw [getField_setField_ne _ _ _ _ (by decide)]; exact getField_setField_same _ _ _,
           getField_setField_same _ _ _⟩
  | vnum m =>
    have hp' : parseEmpId (.vnum m) = some n := hp
    simp only [hp', if_pos hn, hh]
    exact ⟨by rw [getField_setField_ne _ _ _ _ (by decide)]; exact getField_setField_same _ _ _,
           getField_setField_same _ _ _⟩

theorem populateEmployeeRecord_miss (cache : List (Int × JVal)) (r : Rec)
    (v : JVal) (n : Int)
    (hf : getField r "EmployeeLookupId" = some v)
    (hp : parseEmpId v = some n) (hn : 0 < n)
    (hm : cacheHit cache n = none) :
    getField (populateEmployeeRecord cache r) "Employee"
      = some (.vstr ("[ID: " ++ toString n ++ "]"))
    ∧ getField (populateEmployeeRecord cache r) "EmployeeName"
      = getField r "EmployeeName" := by
  unfold populateEmployeeRecord
  rw [hf]
  cases v with
  | vnull => cases hp
  | vobj o => cases hp
  | varr a => cases hp
  | vstr s =>
    have hp' : parseEmpId (.vstr s) = some n := hp
    simp only [hp', if_pos hn, hm]
    exact ⟨getField_setField_same _ _ _,
           getField_setField_ne _ _ _ _ (by decide)⟩
  | vnum m =>
    have hp' : parseEmpId (.vnum m) = some n := hp
    simp only [hp', if_pos hn, hm]
    exact ⟨getField_setField_same _ _ _,
           getField_setField_ne _ _ _ _ (by decide)⟩

theorem populateAssigneeRecord_inline (cache : List (String × JVal)) (r : Rec)
    (v : JVal) (w : JVal)
    (hf : getField r "field_2LookupId" = some v) (hnn : v ≠ .vnull)
    (hin : assigneeInlinePopulateName r = some w) :
    getField (populateAssigneeRecord cache r) "Assignee" = some w
    ∧ getField (populateAssigneeRecord cache r) "AssigneeName" = some w := by
  unfold populateAssigneeRecord
  rw [hf]
  cases v with
  | vnull => exact absurd rfl hnn
  | vstr s =>
    simp only [hin]
    exact ⟨by rw [getField_setField_ne _ _ _ _ (by decide)]; exact getField_setField_same _ _ _,
           getField_setField_same _ _ _⟩
  | vnum m =>
    simp only [hin]
    exact ⟨by rw [getField_setField_ne _ _ _ _ (by decide)]; exact getField_setField_same _ _ _,
           getField_setField_same _ _ _⟩
  | vobj o =>
    simp only [hin]
    exact ⟨by rw [getField_setField_ne _ _ _ _ (by decide)]; exact getField_setField_same _ _ _,
           getField_setField_same _ _ _⟩
  | varr a =>
    simp only [hin]
    exact ⟨by rw [getField_setField_ne _ _ _ _ (by decide)]; exact getField_setField_same _ _ _,
           getField_setField_same _ _ _⟩

theorem populateAssigneeRecord_hit (cache : List (String × JVal)) (r : Rec)
    (v : JVal) (w : JVal)
    (hf : getField r "field_2LookupId" = some v) (hnn : v ≠ .vnull)
    (hin : assigneeInlinePopulateName r = none)
    (hh : cacheHit cache (jToString v) = some w) :
    getField (populateAssigneeRecord cache r) "Assignee" = some w
    ∧ getField (populateAssigneeRecord cache r) "AssigneeName" = some w := by
  unfold populateAssigneeRecord
  rw [hf]
  cases v with
  | vnull => exact absurd rfl hnn
  | vstr s =>
    simp only [hin, hh]
    exact ⟨by rw [getField_setField_ne _ _ _ _ (by decide)]; exact getField_setField_same _ _ _,
           getField_setField_same _ _ _⟩
  | vnum m =>
    simp only [hin, hh]
    exact ⟨by rw [getField_setField_ne _ _ _ _ (by decide)]; exact getField_setField_same _ _ _,
           getField_setField_same _ _ _⟩
  | vobj o =>
    simp only [hin, hh]
    exact ⟨by rw [getField_setField_ne _ _ _ _ (by decide)]; exact getField_setField_same _ _ _,
           getField_setField_same _ _ _⟩
  | varr a =>
    simp only [hin, hh]
    exact ⟨by rw [getField_setField_ne _ _ _ _ (by decide)]; exact getField_setField_same _ _ _,
           getField_setField_same _ _ _⟩

theorem populateAssigneeRecord_miss (cache : List (String × JVal)) (r : Rec)
    (v : JVal)
    (hf : getField r "field_2LookupId" = some v) (hnn : v ≠ .vnull)
    (hin : assigneeInlinePopulateName r = none)
    (hm : cacheHit cache (jToString v) = none) :
    getField (populateAssigneeRecord cache r) "Assignee"
      = some (.vstr ("[ID: " ++ jToString v ++ "]"))
    ∧ getField (populateAssigneeRecord cache r) "AssigneeName"
      = getField r "AssigneeName" := by
  unfold populateAssigneeRecord
  rw [hf]
  cases v with
  | vnull => exact absurd rfl hnn
  | vstr s =>
    simp only [hin, hm]
    exact ⟨getField_setField_same _ _ _, getField_setField_ne _ _ _ _ (by decide)⟩
  | vnum m =>
    simp only [hin, hm]
    exact ⟨getField_setField_same _ _ _, getField_setField_ne _ _ _ _ (by decide)⟩
  | vobj o =>
    simp only [hin, hm]
    exact ⟨getField_setField_same _ _ _, getField_setField_ne _ _ _ _ (by decide)⟩
  | varr a =>
    simp only [hin, hm]
    exact ⟨getField_setField_same _ _ _, getField_setField_ne _ _ _ _ (by decide)⟩

/-! The claims. -/

/-- Claim C1, counterexample: a record whose Employee field is an inline
expanded mapping carrying the display name Jane Doe is NOT rewritten to
that display name when the first record of the list has no inline
mapping — the resolver only inspects the first record to choose the
inline branch, so the second record keeps its raw object value. -/
theorem claim1_counterexample :
    ¬ (fieldAt (resolveEmployeeNames stW envFail recsC1cex "site1" none).1 1 "Employee"
        = some (.vstr "Jane Doe")) := by
  have e : fieldAt (resolveEmployeeNames stW envFail recsC1cex "site1" none).1 1 "Employee"
      = some (.vobj [("displayName", .vstr "Jane Doe")]) := rfl
  rw [e]
  intro h
  injection h with h2
  exact JVal.noConfusion h2

/-- Claim C1, amended: when the FIRST record's Employee field is an
inline expanded mapping (the condition the code actually tests), every
record of the list whose Employee field is an inline mapping carrying a
string display name not shaped like an employee code has both Employee
and EmployeeName set to that name, and no network request is issued. -/
theorem claim1_amended (st : SPService) (env : GraphEnv) (records : List Rec)
    (siteId : String) (cached : Option (List Rec)) (i : Nat) (r : Rec)
    (o : List (String × JVal)) (s : String)
    (hmode : inlineEmployeeMode records = true)
    (hi : records.get? i = some r)
    (hemp : getField r "Employee" = some (.vobj o))
    (hname : employeeInlineName (.vobj o) = some (.vstr s))
    (hhph : matchHPH s = false) :
    fieldAt (resolveEmployeeNames st env records siteId cached).1 i "Employee"
      = some (.vstr s)
    ∧ fieldAt (resolveEmployeeNames st env records siteId cached).1 i "EmployeeName"
      = some (.vstr s)
    ∧ (resolveEmployeeNames st env records siteId cached).2.2 = [] := by
  rw [resolveEmployee_inline st env records siteId cached hmode]
  have hu := employeeInlineUpdate_name r o s hemp hname hhph
  refine ⟨?_, ?_, rfl⟩
  · unfold fieldAt
    rw [listGetMap, hi]
    show getField (employeeInlineUpdate r) "Employee" = _
    rw [hu, getField_setField_ne _ _ _ _ (by decide)]
    exact getField_setField_same _ _ _
  · unfold fieldAt
    rw [listGetMap, hi]
    show getField (employeeInlineUpdate r) "EmployeeName" = _
    rw [hu]
    exact getField_setField_same _ _ _

/-- Claim C1, witness: on a one-record list with the inline mapping of
the spec's example, resolution yields Employee equal to Jane Doe in both
fields, with an empty request log. -/
theorem claim1_witness :
    fieldAt (resolveEmployeeNames stW envFail recsInline "site1" none).1 0 "Employee"
      = some (.vstr "Jane Doe")
    ∧ fieldAt (resolveEmployeeNames stW envFail recsInline "site1" none).1 0 "EmployeeName"
      = some (.vstr "Jane Doe")
    ∧ (resolveEmployeeNames stW envFail recsInline "site1" none).2.2 = [] :=
  claim1_amended stW envFail recsInline "site1" none 0
    [("Id", .vstr "1"), ("Employee", .vobj [("displayName", .vstr "Jane Doe")])]
    [("displayName", .vstr "Jane Doe")] "Jane Doe" rfl rfl rfl rfl rfl

/-- Claim C2: a record whose raw lookup identifier parses to a positive
number but resolves through no tier — the list is not in inline mode, and
the name cache assembled from the caller-supplied cache and the remote
fetches holds nothing usable for it — ends with its reference field set
to exactly the placeholder embedding the identifier; the employee resolver
(first conjunct) and the assignee resolver (second conjunct). -/
theorem claim2_fallback :
    (∀ (st : SPService) (env : GraphEnv) (records : List Rec) (siteId : String)
       (cached : Option (List Rec)) (i : Nat) (r : Rec) (v : JVal) (n : Int),
       inlineEmployeeMode records = false →
       records.get? i = some r →
       getField r "EmployeeLookupId" = some v →
       parseEmpId v = some n → 0 < n →
       cacheHit (employeeFinalCache st env records siteId cached) n = none →
       fieldAt (resolveEmployeeNames st env records siteId cached).1 i "Employee"
         = some (.vstr ("[ID: " ++ toString n ++ "]")))
    ∧ (∀ (st : SPService) (env : GraphEnv) (records : List Rec)
         (cached : Option (List Rec)) (i : Nat) (r : Rec) (v : JVal),
       records.get? i = some r →
       getField r "field_2LookupId" = some v → v ≠ .vnull →
       assigneeInlinePopulateName r = none →
       cacheHit (assigneeFinalCache st env records cached) (jToString v) = none →
       fieldAt (resolveAssigneeNames st env records cached).1 i "Assignee"
         = some (.vstr ("[ID: " ++ jToString v ++ "]"))) := by
  constructor
  · intro st env records siteId cached i r v n hmode hi hf hp hn hm
    have hmem := collect_mem_employee records i r v n hi hf hp hn
    have hne := List.ne_nil_of_mem hmem
    rw [resolveEmployee_populate st env records siteId cached hmode hne]
    unfold fieldAt populateEmployees
    rw [listGetMap, hi]
    show getField (populateEmployeeRecord _ r) "Employee" = _
    exact (populateEmployeeRecord_miss _ r v n hf hp hn hm).1
  · intro st env records cached i r v hi hf hnn hin hm
    have hmem := collect_mem_assignee records i r v hi hf hnn
    have hne := List.ne_nil_of_mem hmem
    rw [resolveAssignee_populate st env records cached hne]
    unfold fieldAt
    rw [listGetMap, hi]
    show getField (populateAssigneeRecord _ r) "Assignee" = _
    exact (populateAssigneeRecord_miss _ r v hf hnn hin hm).1

/-- Claim C2, witness: identifier 42 with no cache and a failing remote
yields exactly the string with ID 42 in brackets, for both resolvers. -/
theorem claim2_fallback_witness :
    fieldAt (resolveEmployeeNames stW envFail recsFallback "site1" none).1 0 "Employee"
      = some (.vstr "[ID: 42]")
    ∧ fieldAt (resolveAssigneeNames stW envFail recsAFallback none).1 0 "Assignee"
      = some (.vstr "[ID: 42]") := by
  constructor
  · exact claim2_fallback.1 stW envFail recsFallback "site1" none 0
      [("Id", .vstr "1"), ("EmployeeLookupId", .vnum 42)] (.vnum 42) 42
      rfl rfl rfl rfl (by decide) rfl
  · exact claim2_fallback.2 stW envFail recsAFallback none 0
      [("Id", .vstr "1"), ("field_2LookupId", .vstr "42")] (.vstr "42")
      rfl rfl (fun h => JVal.noConfusion h) rfl rfl

/-- Claim C3, counterexample: after the employee resolver runs on a
record carrying lookup identifier 42 that resolves through no tier, the
short field holds the placeholder but the EmployeeName field is NOT set —
the fallback writes only the short field, so the claimed invariant that
both fields are always set fails. -/
theorem claim3_counterexample :
    fieldAt (resolveEmployeeNames stW envFail recsFallback "site1" none).1 0 "Employee"
      = some (.vstr "[ID: 42]")
    ∧ fieldAt (resolveEmployeeNames stW envFail recsFallback "site1" none).1 0 "EmployeeName"
      = none :=
  ⟨rfl, rfl⟩

/-- Claim C3, amended: in lookup-identifier mode, a record whose raw
identifier is usable (a positive number for the employee resolver, any
non-null value for the assignee resolver) ends with BOTH the short field
and the Name field set to the resolved display value when any tier
resolved one (for the assignee resolver also from its own inline
mapping); when no tier resolved a name, only the short field is written,
with the placeholder embedding the identifier, and the Name field is
left unchanged. -/
theorem claim3_amended :
    (∀ (st : SPService) (env : GraphEnv) (records : List Rec) (siteId : String)
       (cached : Option (List Rec)) (i : Nat) (r : Rec) (v : JVal) (n : Int) (w : JVal),
       inlineEmployeeMode records = false →
       records.get? i = some r →
       getField r "EmployeeLookupId" = some v →
       parseEmpId v = some n → 0 < n →
       cacheHit (employeeFinalCache st env records siteId cached) n = some w →
       fieldAt (resolveEmployeeNames st env records siteId cached).1 i "Employee" = some w
       ∧ fieldAt (resolveEmployeeNames st env records siteId cached).1 i "EmployeeName" = some w)
    ∧ (∀ (st : SPService) (env : GraphEnv) (records : List Rec) (siteId : String)
         (cached : Option (List Rec)) (i : Nat) (r : Rec) (v : JVal) (n : Int),
       inlineEmployeeMode records = false →
       records.get? i = some r →
       getField r "EmployeeLookupId" = some v →
       parseEmpId v = some n → 0 < n →
       cacheHit (employeeFinalCache st env records siteId cached) n = none →
       fieldAt (resolveEmployeeNames st env records siteId cached).1 i "Employee"
         = some (.vstr ("[ID: " ++ toString n ++ "]"))
       ∧ fieldAt (resolveEmployeeNames st env records siteId cached).1 i "EmployeeName"
         = getField r "EmployeeName")
    ∧ (∀ (st : SPService) (env : GraphEnv) (records : List Rec)
         (cached : Option (List Rec)) (i : Nat) (r : Rec) (v : JVal) (w : JVal),
       records.get? i = some r →
       getField r "field_2LookupId" = some v → v ≠ .vnull →
       assigneeInlinePopulateName r = some w →
       fieldAt (resolveAssigneeNames st env records cached).1 i "Assignee" = some w
       ∧ fieldAt (resolveAssigneeNames st env records cached).1 i "AssigneeName" = some w)
    ∧ (∀ (st : SPService) (env : GraphEnv) (records : List Rec)
         (cached : Option (List Rec)) (i : Nat) (r : Rec) (v : JVal) (w : JVal),
       records.get? i = some r →
       getField r "field_2LookupId" = some v → v ≠ .vnull →
       assigneeInlinePopulateName r = none →
       cacheHit (assigneeFinalCache st env records cached) (jToString v) = some w →
       fieldAt (resolveAssigneeNames st env records cached).1 i "Assignee" = some w
       ∧ fieldAt (resolveAssigneeNames st env records cached).1 i "AssigneeName" = some w)
    ∧ (∀ (st : SPService) (env : GraphEnv) (records : List Rec)
         (cached : Option (List Rec)) (i : Nat) (r : Rec) (v : JVal),
       records.get? i = some r →
       getField r "field_2LookupId" = some v → v ≠ .vnull →
       assigneeInlinePopulateName r = none →
       cacheHit (assigneeFinalCache st env records cached) (jToString v) = none →
       fieldAt (resolveAssigneeNames st env records cached).1 i "Assignee"
         = some (.vstr ("[ID: " ++ jToString v ++ "]"))
       ∧ fieldAt (resolveAssigneeNames st env records cached).1 i "AssigneeName"
         = getField r "AssigneeName") := by
  refine ⟨?_, ?_, ?_, ?_, ?_⟩
  · intro st env records siteId cached i r v n w hmode hi hf hp hn hh
    have hmem := collect_mem_employee records i r v n hi hf hp hn
    rw [resolveEmployee_populate st env records siteId cached hmode (List.ne_nil_of_mem hmem)]
    unfold fieldAt populateEmployees
    rw [listGetMap, hi]
    exact populateEmployeeRecord_hit _ r v n w hf hp hn hh
  · intro st env records siteId cached i r v n hmode hi hf hp hn hm
    have hmem := collect_mem_employee records i r v n hi hf hp hn
    rw [resolveEmployee_populate st env records siteId cached hmode (List.ne_nil_of_mem hmem)]
    unfold fieldAt populateEmployees
    rw [listGetMap, hi]
    exact populateEmployeeRecord_miss _ r v n hf hp hn hm
  · intro st env records cached i r v w hi hf hnn hin
    have hmem := collect_mem_assignee records i r v hi hf hnn
    rw [resolveAssignee_populate st env records cached (List.ne_nil_of_mem hmem)]
    unfold fieldAt
    rw [listGetMap, hi]
    exact populateAssigneeRecord_inline _ r v w hf hnn hin
  · intro st env records cached i r v w hi hf hnn hin hh
    have hmem := collect_mem_assignee records i r v hi hf hnn
    rw [resolveAssignee_populate st env records cached (List.ne_nil_of_mem hmem)]
    unfold fieldAt
    rw [listGetMap, hi]
    exact populateAssigneeRecord_hit _ r v w hf hnn hin hh
  · intro st env records cached i r v hi hf hnn hin hm
    have hmem := collect_mem_assignee records i r v hi hf hnn
    rw [resolveAssignee_populate st env records cached (List.ne_nil_of_mem hmem)]
    unfold fieldAt
    rw [listGetMap, hi]
    exact populateAssigneeRecord_miss _ r v hf hnn hin hm

/-- Claim C3, witness: a resolved employee reference (via the supplied
cache) sets both fields to Jane Doe; an unresolved one sets only the
short field to the placeholder and leaves EmployeeName absent; an inline
assignee reference sets both fields to Bob Smith. -/
theorem claim3_amended_witness :
    (fieldAt (resolveEmployeeNames stW envFail recsFallback "site1" (some cachedEmps)).1 0 "Employee"
       = some (.vstr "Jane Doe")
     ∧ fieldAt (resolveEmployeeNames stW envFail recsFallback "site1" (some cachedEmps)).1 0 "EmployeeName"
       = some (.vstr "Jane Doe"))
    ∧ (fieldAt (resolveEmployeeNames stW envFail recsFallback "site1" none).1 0 "Employee"
         = some (.vstr "[ID: 42]")
       ∧ fieldAt (resolveEmployeeNames stW envFail recsFallback "site1" none).1 0 "EmployeeName"
         = none)
    ∧ (fieldAt (resolveAssigneeNames stW envFail recsAInline none).1 0 "Assignee"
         = some (.vstr "Bob Smith")
       ∧ fieldAt (resolveAssigneeNames stW envFail recsAInline none).1 0 "AssigneeName"
         = some (.vstr "Bob Smith")) := by
  refine ⟨?_, ?_, ?_⟩
  · exact claim3_amended.1 stW envFail recsFallback "site1" (some cachedEmps) 0
      [("Id", .vstr "1"), ("EmployeeLookupId", .vnum 42)] (.vnum 42) 42
      (.vstr "Jane Doe") rfl rfl rfl rfl (by decide) rfl
  · exact claim3_amended.2.1 stW envFail recsFallback "site1" none 0
      [("Id", .vstr "1"), ("EmployeeLookupId", .vnum 42)] (.vnum 42) 42
      rfl rfl rfl rfl (by decide) rfl
  · exact claim3_amended.2.2.1 stW envFail recsAInline none 0
      [("Id", .vstr "1"), ("field_2LookupId", .vstr "7"),
       ("field_2", .vobj [("displayName", .vstr "Bob Smith")])]
      (.vstr "7") (.vstr "Bob Smith")
      rfl rfl (fun h => JVal.noConfusion h) rfl

theorem makeGraphRequest_ok (st : SPService) (env : GraphEnv) (e m : String)
    (b : Option Rec) (d : Rec) (log : List HttpRequest)
    (h : makeGraphRequest st env e m b = (.ok d, log)) :
    tokenFalsy st.accessToken = false ∧ env.respond ⟨e, m, b⟩ = .ok d
    ∧ log = [⟨e, m, b⟩] := by
  unfold makeGraphRequest at h
  split at h
  · exact absurd h (by simp)
  · next htok =>
    split at h
    · exact absurd h (by simp)
    · next data hresp =>
      injection h with h1 h2
      injection h1 with h1
      subst h1
      subst h2
      exact ⟨Bool.not_eq_true _ ▸ htok, hresp, rfl⟩

theorem getSiteId_ok (st : SPService) (env : GraphEnv) (sid : String)
    (stA : SPService) (siteLog : List HttpRequest)
    (h : getSiteId st env = (.ok sid, stA, siteLog)) :
    stA.siteId = some sid
    ∧ stA.listIdCache = st.listIdCache
    ∧ stA.accessToken = st.accessToken
    ∧ (siteLog = []
       ∨ siteLog = [⟨"sites/" ++ encodeURIComponent (sitePathOf st.siteUrl), "GET", none⟩]) := by
  unfold getSiteId at h
  split at h
  · next s hcached =>
    injection h with h1 h2
    injection h1 with h1
    injection h2 with h2 h3
    subst h1
    subst h2
    subst h3
    exact ⟨hcached, rfl, rfl, Or.inl rfl⟩
  · next hnone =>
    split at h
    · exact absurd h (by simp)
    · next data log hreq =>
      split at h
      · next v hv =>
        split at h
        · injection h with h1 h2
          injection h1 with h1
          injection h2 with h2 h3
          subst h1
          subst h2
          subst h3
          refine ⟨rfl, rfl, rfl, Or.inr ?_⟩
          exact ((makeGraphRequest_ok st env _ "GET" none data log hreq).2.2)
        · exact absurd h (by simp)
      · exact absurd h (by simp)

theorem getListId_ok_dissect (st : SPService) (env : GraphEnv) (name id : String)
    (st₁ : SPService) (log₁ : List HttpRequest)
    (hmiss : aGet st.listIdCache name = none)
    (h : getListId st env name = (.ok id, st₁, log₁)) :
    ∃ sid stA siteLog listsData l,
      getSiteId st env = (.ok sid, stA, siteLog)
      ∧ env.respond ⟨"sites/" ++ sid ++ "/lists", "GET", none⟩ = .ok listsData
      ∧ tokenFalsy stA.accessToken = false
      ∧ (listsOf listsData).find? (listMatchesName name) = some l
      ∧ getProp l "id" = some (.vstr id)
      ∧ st₁ = { stA with listIdCache := aSet stA.listIdCache name id }
      ∧ log₁ = siteLog ++ [⟨"sites/" ++ sid ++ "/lists", "GET", none⟩] := by
  unfold getListId at h
  rw [hmiss] at h
  rcases hsite : getSiteId st env with ⟨res, stA, siteLog⟩
  rw [hsite] at h
  cases res with
  | error e => simp only [] at h; exact absurd h (by simp)
  | ok sid =>
    rcases hreq : makeGraphRequest stA env ("sites/" ++ sid ++ "/lists") "GET" none
      with ⟨mres, mlog⟩
    simp only [] at h
    rw [hreq] at h
    cases mres with
    | error e => simp only [] at h; exact absurd h (by simp)
    | ok listsData =>
      simp only [] at h
      rcases hfind : (listsOf listsData).find? (listMatchesName name) with _ | l
      · rw [hfind] at h
        exact absurd h (by simp)
      · rw [hfind] at h
        simp only [] at h
        rcases hid : getProp l "id" with _ | v
        · rw [hid] at h
          exact absurd h (by simp)
        · rw [hid] at h
          cases v with
          | vstr lid =>
            injection h with h1 h2
            injection h1 with h1
            injection h2 with h2 h3
            subst h1
            subst h2
            obtain ⟨htok, hresp, hlog⟩ :=
              makeGraphRequest_ok stA env _ "GET" none listsData mlog hreq
            subst hlog
            exact ⟨sid, stA, siteLog, listsData, l, rfl, hresp, htok, hfind, hid,
                   rfl, h3.symm⟩
          | vnum m => exact absurd h (by simp)
          | vnull => exact absurd h (by simp)
          | vobj o => exact absurd h (by simp)
          | varr a => exact absurd h (by simp)

theorem listMatchesName_congr (n1 n2 : String) (h : jsToLower n1 = jsToLower n2) :
    listMatchesName n1 = listMatchesName n2 := by
  funext l
  unfold listMatchesName
  rw [h]

/-- Claim C4: on a three-page listing of 999 users each, getAllUsers
returns 2997 users and issues exactly 3 requests; against an environment
that advertises a continuation link on every page (51 or more pages
available), it stops after 50 requests, the hard page cap. Termination
on every environment is intrinsic: the loop is a total structural
recursion on the remaining-page counter. -/
theorem claim4_pagination :
    (getAllUsers stW env3).1.length = 2997
    ∧ (getAllUsers stW env3).2.length = 3
    ∧ (getAllUsers stW envInf).2.length = 50 := by
  have hrun : getAllUsers stW env3
      = ((([] ++ (List.replicate 999 userObj).map shapeUser)
           ++ (List.replicate 999 userObj).map shapeUser)
           ++ (List.replicate 999 userObj).map shapeUser,
         [⟨initialUsersEndpoint, "GET", none⟩, ⟨"usersP2", "GET", none⟩,
          ⟨"usersP3", "GET", none⟩]) := rfl
  refine ⟨?_, ?_, ?_⟩
  · rw [hrun]
    simp only [List.length_append, List.length_map, List.length_replicate,
      List.length_nil]
  · rw [hrun]
    rfl
  · rfl

/-- Claim C5: with an empty or placeholder client or tenant identifier,
authenticate fails with the configuration-error condition, leaves the
service untouched, and performs zero external interactions (no prompt
launch, no token-endpoint call). -/
theorem claim5_config_guard (st : SPService) (env : AuthEnv)
    (h : st.clientId = "" ∨ st.clientId = "YOUR_CLIENT_ID_HERE" ∨
         st.tenantId = "" ∨ st.tenantId = "YOUR_TENANT_ID_HERE") :
    isConfigErrorRes (authenticate st env).1 = true
    ∧ (authenticate st env).2.1 = st
    ∧ (authenticate st env).2.2 = 0 := by
  by_cases hc : st.clientId = "" ∨ st.clientId = "YOUR_CLIENT_ID_HERE"
  · unfold authenticate
    rw [if_pos hc]
    exact ⟨rfl, rfl, rfl⟩
  · have ht : st.tenantId = "" ∨ st.tenantId = "YOUR_TENANT_ID_HERE" := by
      rcases h with h | h | h | h
      · exact absurd (Or.inl h) hc
      · exact absurd (Or.inr h) hc
      · exact Or.inl h
      · exact Or.inr h
    unfold authenticate
    rw [if_neg hc, if_pos ht]
    exact ⟨rfl, rfl, rfl⟩

/-- Claim C5, witness: the placeholder client identifier makes
authenticate fail as a configuration error with zero interactions. -/
theorem claim5_config_guard_witness :
    isConfigErrorRes (authenticate stPlaceholder envA).1 = true
    ∧ (authenticate stPlaceholder envA).2.1 = stPlaceholder
    ∧ (authenticate stPlaceholder envA).2.2 = 0 :=
  claim5_config_guard stPlaceholder envA (Or.inr (Or.inl rfl))

theorem makeGraphRequest_log (st : SPService) (env : GraphEnv) (e m : String)
    (b : Option Rec) :
    (makeGraphRequest st env e m b).2 = []
    ∨ (makeGraphRequest st env e m b).2 = [⟨e, m, b⟩] := by
  unfold makeGraphRequest
  split
  · exact Or.inl rfl
  · split
    · exact Or.inr rfl
    · exact Or.inr rfl

theorem makeGraphRequest_log_req (st : SPService) (env : GraphEnv) (e m : String)
    (b : Option Rec) :
    ∀ r ∈ (makeGraphRequest st env e m b).2, r.method = m ∧ r.body = b := by
  intro r hr
  rcases makeGraphRequest_log st env e m b with hl | hl
  · rw [hl] at hr
    cases hr
  · rw [hl] at hr
    rw [List.mem_singleton.mp hr]
    exact ⟨rfl, rfl⟩

theorem getSiteId_log_req (st : SPService) (env : GraphEnv) :
    ∀ r ∈ (getSiteId st env).2.2, r.method = "GET" ∧ r.body = none := by
  intro r hr
  unfold getSiteId at hr
  split at hr
  · cases hr
  · rcases hm : makeGraphRequest st env
        ("sites/" ++ encodeURIComponent (sitePathOf st.siteUrl)) "GET" none
      with ⟨mres, mlog⟩
    rw [hm] at hr
    have hmq := makeGraphRequest_log_req st env
      ("sites/" ++ encodeURIComponent (sitePathOf st.siteUrl)) "GET" none
    rw [hm] at hmq
    cases mres with
    | error e =>
      simp only [] at hr
      exact hmq r hr
    | ok data =>
      simp only [] at hr
      have hr' : r ∈ mlog := by
        split at hr
        · split at hr
          · exact hr
          · exact hr
        · exact hr
      exact hmq r hr'

theorem getListId_log_req (st : SPService) (env : GraphEnv) (name : String) :
    ∀ r ∈ (getListId st env name).2.2, r.method = "GET" ∧ r.body = none := by
  intro r hr
  unfold getListId at hr
  split at hr
  · cases hr
  · have hsq := getSiteId_log_req st env
    rcases hsite : getSiteId st env with ⟨res, st1, log1⟩
    rw [hsite] at hr hsq
    cases res with
    | error e =>
      simp only [] at hr
      exact hsq r hr
    | ok sid =>
      simp only [] at hr
      have hmq := makeGraphRequest_log_req st1 env
        ("sites/" ++ sid ++ "/lists") "GET" none
      rcases hm : makeGraphRequest st1 env ("sites/" ++ sid ++ "/lists") "GET" none
        with ⟨mres, mlog⟩
      rw [hm] at hr hmq
      cases mres with
      | error e =>
        simp only [] at hr
        rcases List.mem_append.mp hr with h | h
        · exact hsq r h
        · exact hmq r h
      | ok listsData =>
        simp only [] at hr
        have hr' : r ∈ log1 ++ mlog := by
          split at hr
          · exact hr
          · split at hr
            · exact hr
            · exact hr
        rcases List.mem_append.mp hr' with h | h
        · exact hsq r h
        · exact hmq r h

/-- Claim C8: every PATCH request issued by updateRecord carries exactly
the supplied field mapping as its body (the body handed to
JSON.stringify), and when the update succeeds, exactly one PATCH request
was issued — the identifier-resolution traffic is all GET, so no other
write can touch the item. -/
theorem claim8_partial_update (st : SPService) (env : GraphEnv)
    (listName itemId : String) (fields : Rec) :
    (∀ req ∈ (updateRecord st env listName itemId fields).2.2,
       req.method = "PATCH" → req.body = some fields)
    ∧ (∀ d, (updateRecord st env listName itemId fields).1 = .ok d →
       ((updateRecord st env listName itemId fields).2.2.filter
          (fun req => req.method == "PATCH")).length = 1) := by
  have hgq := getListId_log_req st env listName
  unfold updateRecord
  rcases hg : getListId st env listName with ⟨res1, st1, log1⟩
  rw [hg] at hgq
  cases res1 with
  | error e =>
    simp only []
    constructor
    · intro req hmem hp
      have hget := (hgq req hmem).1
      rw [hget] at hp
      exact absurd hp (by decide)
    · intro d hd
      exact absurd hd (by simp)
  | ok listId =>
    simp only []
    have hsq := getSiteId_log_req st1 env
    rcases hs : getSiteId st1 env with ⟨res2, st2, log2⟩
    rw [hs] at hsq
    cases res2 with
    | error e =>
      simp only []
      constructor
      · intro req hmem hp
        rcases List.mem_append.mp hmem with h | h
        · have hget := (hgq req h).1
          rw [hget] at hp
          exact absurd hp (by decide)
        · have hget := (hsq req h).1
          rw [hget] at hp
          exact absurd hp (by decide)
      · intro d hd
        exact absurd hd (by simp)
    | ok siteId =>
      simp only []
      have hmq := makeGraphRequest_log_req st2 env
        ("sites/" ++ siteId ++ "/lists/" ++ listId ++ "/items/" ++ itemId ++ "/fields")
        "PATCH" (some fields)
      rcases hm : makeGraphRequest st2 env
          ("sites/" ++ siteId ++ "/lists/" ++ listId ++ "/items/" ++ itemId ++ "/fields")
          "PATCH" (some fields) with ⟨res3, log3⟩
      rw [hm] at hmq
      have hmemlemma : ∀ req ∈ log1 ++ log2 ++ log3,
          req.method = "PATCH" → req.body = some fields := by
        intro req hmem hp
        rcases List.mem_append.mp hmem with h | h
        · rcases List.mem_append.mp h with h' | h'
          · have hget := (hgq req h').1
            rw [hget] at hp
            exact absurd hp (by decide)
          · have hget := (hsq req h').1
            rw [hget] at hp
            exact absurd hp (by decide)
        · exact (hmq req h).2
      have hfilter12 : (log1 ++ log2).filter (fun req => req.method == "PATCH") = [] := by
        refine List.filter_eq_nil_iff.mpr ?_
        intro a ha
        rcases List.mem_append.mp ha with h | h
        · have := (hgq a h).1
          simp [this]
        · have := (hsq a h).1
          simp [this]
      cases res3 with
      | error e =>
        simp only []
        constructor
        · exact hmemlemma
        · intro d hd
          exact absurd hd (by simp)
      | ok resp =>
        simp only []
        constructor
        · exact hmemlemma
        · intro d hd
          obtain ⟨_, _, hlog3⟩ := makeGraphRequest_ok st2 env _ "PATCH" (some fields)
            resp log3 hm
          subst hlog3
          rw [List.filter_append, hfilter12]
          rfl

/-- Claim C8, witness: updating a Status field issues exactly one PATCH
whose body is exactly the supplied one-key mapping. -/
theorem claim8_partial_update_witness :
    (⟨"sites/site9/lists/L1/items/5/fields", "PATCH",
       some [("Status", JVal.vstr "Active")]⟩ : HttpRequest)
      ∈ (updateRecord stFresh envL "Assets" "5" [("Status", JVal.vstr "Active")]).2.2
    ∧ (⟨"sites/site9/lists/L1/items/5/fields", "PATCH",
         some [("Status", JVal.vstr "Active")]⟩ : HttpRequest).body
        = some [("Status", JVal.vstr "Active")]
    ∧ ((updateRecord stFresh envL "Assets" "5" [("Status", JVal.vstr "Active")]).2.2.filter
         (fun req => req.method == "PATCH")).length = 1 := by
  have hmem : (⟨"sites/site9/lists/L1/items/5/fields", "PATCH",
      some [("Status", JVal.vstr "Active")]⟩ : HttpRequest)
      ∈ (updateRecord stFresh envL "Assets" "5" [("Status", JVal.vstr "Active")]).2.2 := by
    rw [show (updateRecord stFresh envL "Assets" "5" [("Status", JVal.vstr "Active")]).2.2
        = [⟨"sites/" ++ encodeURIComponent (sitePathOf stFresh.siteUrl), "GET", none⟩,
           ⟨"sites/site9/lists", "GET", none⟩,
           ⟨"sites/site9/lists/L1/items/5/fields", "PATCH",
            some [("Status", JVal.vstr "Active")]⟩] from rfl]
    exact List.mem_cons_of_mem _ (List.mem_cons_of_mem _ (List.mem_cons_self _ _))
  refine ⟨hmem, ?_, ?_⟩
  · exact (claim8_partial_update stFresh envL "Assets" "5"
      [("Status", JVal.vstr "Active")]).1 _ hmem rfl
  · exact (claim8_partial_update stFresh envL "Assets" "5"
      [("Status", JVal.vstr "Active")]).2 [("id", JVal.vstr "site9")] rfl

/-- Claim C6: a successful first resolution of a name that missed the
name-to-identifier cache issued exactly one container-listing request
(everything else in its log is site resolution), stored the identifier,
and a second call with the same name returns the same identifier from
the cache with an empty request log — no network access at all. -/
theorem claim6_memoized (st : SPService) (env : GraphEnv) (name id : String)
    (st₁ : SPService) (log₁ : List HttpRequest)
    (hmiss : aGet st.listIdCache name = none)
    (h : getListId st env name = (.ok id, st₁, log₁)) :
    (∃ sid siteLog,
       log₁ = siteLog ++ [⟨"sites/" ++ sid ++ "/lists", "GET", none⟩]
       ∧ ∀ r ∈ siteLog,
           r.endpoint = "sites/" ++ encodeURIComponent (sitePathOf st.siteUrl))
    ∧ getListId st₁ env name = (.ok id, st₁, []) := by
  obtain ⟨sid, stA, siteLog, listsData, l, hsite, hresp, htok, hfind, hid, hst1, hlog⟩ :=
    getListId_ok_dissect st env name id st₁ log₁ hmiss h
  constructor
  · refine ⟨sid, siteLog, hlog, ?_⟩
    obtain ⟨_, _, _, hcase⟩ := getSiteId_ok st env sid stA siteLog hsite
    intro r hr
    rcases hcase with hnil | hone
    · rw [hnil] at hr
      cases hr
    · rw [hone] at hr
      rw [List.mem_singleton.mp hr]
  · have hcach : aGet st₁.listIdCache name = some id := by
      rw [hst1]
      exact aGet_aSet_same _ _ _
    unfold getListId
    rw [hcach]

/-- Claim C6, witness: resolving Assets twice against a one-list
container: the second call returns the memoized identifier with an empty
request log. -/
theorem claim6_memoized_witness :
    getListId (getListId stFresh envL "Assets").2.1 envL "Assets"
      = (.ok "L1", (getListId stFresh envL "Assets").2.1, []) :=
  (claim6_memoized stFresh envL "Assets" "L1"
    (getListId stFresh envL "Assets").2.1 (getListId stFresh envL "Assets").2.2
    rfl rfl).2

/-- Claim C7: resolution matches the requested name case-insensitively
against both the machine name and the display name, so any two spellings
equal up to case resolve to the same identifier from a fresh cache. -/
theorem claim7_case_insensitive (st : SPService) (env : GraphEnv) (n1 n2 : String)
    (hc : st.listIdCache = []) (hl : jsToLower n1 = jsToLower n2) :
    idOf (getListId st env n1) = idOf (getListId st env n2) := by
  unfold getListId
  have e1 : aGet ([] : List (String × String)) n1 = none := rfl
  have e2 : aGet ([] : List (String × String)) n2 = none := rfl
  rw [hc, listMatchesName_congr n1 n2 hl, e1, e2]
  rcases hsite : getSiteId st env with ⟨res, stA, siteLog⟩
  cases res with
  | error e => rfl
  | ok sid =>
    simp only []
    rcases hreq : makeGraphRequest stA env ("sites/" ++ sid ++ "/lists") "GET" none
      with ⟨mres, mlog⟩
    cases mres with
    | error e => rfl
    | ok listsData =>
      simp only []
      rcases hfind : (listsOf listsData).find? (listMatchesName n2) with _ | l
      · rfl
      · simp only []
        rcases hid : getProp l "id" with _ | v
        · rfl
        · cases v <;> rfl

/-- Claim C7, witness: the lower-case and upper-case spellings of Assets
resolve to the same identifier, namely L1. -/
theorem claim7_case_insensitive_witness :
    idOf (getListId stFresh envL "assets") = idOf (getListId stFresh envL "ASSETS")
    ∧ idOf (getListId stFresh envL "assets") = some "L1" :=
  ⟨claim7_case_insensitive stFresh envL "assets" "ASSETS" rfl rfl, rfl⟩

/-- Claim C10: the memoization cache is keyed by the exact name string
while matching is case-insensitive. After a successful first resolution
from a fresh cache, a differently-cased spelling misses the cache, issues
exactly one further container-listing request (the site identifier is
already memoized), returns the same identifier, and both spellings end up
cached separately. -/
theorem claim10_cache_exact_key (st : SPService) (env : GraphEnv)
    (n1 n2 id : String) (st₁ : SPService) (log₁ : List HttpRequest)
    (hc : st.listIdCache = [])
    (h1 : getListId st env n1 = (.ok id, st₁, log₁))
    (hne : n1 ≠ n2) (hl : jsToLower n1 = jsToLower n2) :
    aGet st₁.listIdCache n2 = none
    ∧ ∃ sid, st₁.siteId = some sid
      ∧ getListId st₁ env n2
          = (.ok id, { st₁ with listIdCache := aSet st₁.listIdCache n2 id },
             [⟨"sites/" ++ sid ++ "/lists", "GET", none⟩])
      ∧ aGet (aSet st₁.listIdCache n2 id) n1 = some id
      ∧ aGet (aSet st₁.listIdCache n2 id) n2 = some id := by
  have hmiss : aGet st.listIdCache n1 = none := by
    rw [hc]
    rfl
  obtain ⟨sid, stA, siteLog, listsData, l, hsite, hresp, htok, hfind, hid, hst1, hlog⟩ :=
    getListId_ok_dissect st env n1 id st₁ log₁ hmiss h1
  obtain ⟨hsid, hcacheA, htokA, _⟩ := getSiteId_ok st env sid stA siteLog hsite
  have hcache1 : st₁.listIdCache = [(n1, id)] := by
    rw [hst1]
    show aSet stA.listIdCache n1 id = [(n1, id)]
    rw [hcacheA, hc]
    rfl
  have hn2 : aGet st₁.listIdCache n2 = none := by
    rw [hcache1]
    simp [aGet, List.find?, beq_false_of_ne hne]
  have hsid1 : st₁.siteId = some sid := by
    rw [hst1]
    exact hsid
  refine ⟨hn2, sid, hsid1, ?_, ?_, ?_⟩
  · have hsite2 : getSiteId st₁ env = (.ok sid, st₁, []) := by
      unfold getSiteId
      rw [hsid1]
    have htok1 : tokenFalsy st₁.accessToken = false := by
      rw [hst1]
      show tokenFalsy stA.accessToken = false
      exact htok
    have hreq2 : makeGraphRequest st₁ env ("sites/" ++ sid ++ "/lists") "GET" none
        = (.ok listsData, [⟨"sites/" ++ sid ++ "/lists", "GET", none⟩]) := by
      unfold makeGraphRequest
      rw [htok1]
      simp only [Bool.false_eq_true, if_false]
      rw [hresp]
    unfold getListId
    rw [hn2]
    rw [hsite2]
    simp only []
    rw [hreq2]
    simp only []
    rw [← listMatchesName_congr n1 n2 hl, hfind]
    simp only []
    rw [hid]
    rfl
  · rw [hcache1]
    have ha : aSet [(n1, id)] n2 id = [(n1, id), (n2, id)] := by
      simp [aSet, beq_false_of_ne hne]
    rw [ha]
    simp [aGet, List.find?]
  · rw [hcache1]
    have ha : aSet [(n1, id)] n2 id = [(n1, id), (n2, id)] := by
      simp [aSet, beq_false_of_ne hne]
    rw [ha]
    simp [aGet, List.find?, beq_false_of_ne hne]

/-- Claim C10, witness: after resolving Assets, resolving assets misses
the cache, issues one listing request, returns the same identifier L1,
and both spellings are cached. -/
theorem claim10_cache_exact_key_witness :
    aGet (getListId stFresh envL "Assets").2.1.listIdCache "assets" = none
    ∧ idOf (getListId (getListId stFresh envL "Assets").2.1 envL "assets") = some "L1"
    ∧ (getListId (getListId stFresh envL "Assets").2.1 envL "assets").2.2.length = 1
    ∧ aGet (getListId (getListId stFresh envL "Assets").2.1 envL "assets").2.1.listIdCache
        "Assets" = some "L1"
    ∧ aGet (getListId (getListId stFresh envL "Assets").2.1 envL "assets").2.1.listIdCache
        "assets" = some "L1" := by
  obtain ⟨h0, sid, hsid, hcall, hget1, hget2⟩ :=
    claim10_cache_exact_key stFresh envL "Assets" "assets" "L1"
      (getListId stFresh envL "Assets").2.1 (getListId stFresh envL "Assets").2.2
      rfl rfl (by decide) rfl
  refine ⟨h0, ?_, ?_, ?_, ?_⟩
  · rw [hcall]
    rfl
  · rw [hcall]
    rfl
  · rw [hcall]
    exact hget1
  · rw [hcall]
    exact hget2

/-- Claim C9: after setAccessToken with the empty string (logout), every
request through the transport guard fails with the not-authenticated
auth error — whose message starts with the words Not authenticated — and
the request log stays empty: nothing reaches the network. -/
theorem claim9_logout_guard (st : SPService) (env : GraphEnv)
    (endpoint method : String) (body : Option Rec) :
    makeGraphRequest (setAccessToken st "") env endpoint method body
      = (.error (.authError "Not authenticated. Call authenticate() first."), [])
    ∧ strStartsWith "Not authenticated. Call authenticate() first." "Not authenticated"
        = true :=
  ⟨rfl, rfl⟩

end AssetManager
